import Mathlib

/-!
Shallow embedding of the LEG 8-bit toy computer
(`src/leg_computer.rs`, `src/leg_computer_parse.rs`) and proofs about it.

Machine words are modelled as `Nat` with explicit `% 256` wherever the
Rust code performs wrapping 8-bit arithmetic (the `as u8` casts and the
`& 0xff` masks of the source).  Fallible Rust operations (`TryFrom`,
`FromStr`, panics from out-of-range `Vec` indexing or `unwrap`) are
modelled with `Except`.
-/

set_option maxRecDepth 100000
set_option maxHeartbeats 4000000

deriving instance DecidableEq for Except

namespace LegSim

/-! ## Opcode enumerations (`leg_computer.rs`) -/

/-- Primary opcode, high nibble of the first instruction byte. -/
inductive Opcode where
  | nop | load | loadP | store | storeP | mov | movC
  | jmp | jmpP | jmpR | jmpRP | stack | gpio | alu
deriving DecidableEq

/-- `impl TryFrom<Word> for Opcode`. -/
def Opcode.tryFrom (w : Nat) : Except String Opcode :=
  match w with
  | 0x0 => .ok .nop
  | 0x1 => .ok .load
  | 0x2 => .ok .loadP
  | 0x3 => .ok .store
  | 0x4 => .ok .storeP
  | 0x5 => .ok .mov
  | 0x6 => .ok .movC
  | 0x7 => .ok .jmp
  | 0x8 => .ok .jmpP
  | 0x9 => .ok .jmpR
  | 0xA => .ok .jmpRP
  | 0xB => .ok .stack
  | 0xC => .ok .gpio
  | 0xD => .ok .alu
  | other => .error ("Invalid opcode: " ++ toString other)

/-- Numeric value of each `Opcode` (`#[repr(u8)]` discriminants). -/
def Opcode.val : Opcode → Nat
  | .nop => 0x0
  | .load => 0x1
  | .loadP => 0x2
  | .store => 0x3
  | .storeP => 0x4
  | .mov => 0x5
  | .movC => 0x6
  | .jmp => 0x7
  | .jmpP => 0x8
  | .jmpR => 0x9
  | .jmpRP => 0xA
  | .stack => 0xB
  | .gpio => 0xC
  | .alu => 0xD

/-- Register selectors, `enum RegisterRef`. -/
inductive RegisterRef where
  | A | B | C | D | FL | ST | BP | IP
deriving DecidableEq

/-- `#[repr(u8)]` discriminants of `RegisterRef`. -/
def RegisterRef.val : RegisterRef → Nat
  | .A => 0
  | .B => 1
  | .C => 2
  | .D => 3
  | .FL => 12
  | .ST => 13
  | .BP => 14
  | .IP => 15

/-- `impl TryFrom<Word> for RegisterRef`. -/
def RegisterRef.tryFrom (w : Nat) : Except String RegisterRef :=
  match w with
  | 0 => .ok .A
  | 1 => .ok .B
  | 2 => .ok .C
  | 3 => .ok .D
  | 12 => .ok .FL
  | 13 => .ok .ST
  | 14 => .ok .BP
  | 15 => .ok .IP
  | other => .error ("Invalid register: " ++ toString other)

/-- The four general-purpose register selectors (legal ALU / stack-load fields). -/
def RegisterRef.isGp : RegisterRef → Bool
  | .A | .B | .C | .D => true
  | _ => false

/-- ALU sub-opcodes, `enum AluOpcode`. -/
inductive AluOpcode where
  | add | addCarry | incr | decr | xor | neg | sub
  | or | and | nand | nor | shiftL | shiftR | echo
deriving DecidableEq

/-- `#[repr(u8)]` discriminants of `AluOpcode`. -/
def AluOpcode.val : AluOpcode → Nat
  | .add => 0b0000
  | .addCarry => 0b0001
  | .incr => 0b0010
  | .decr => 0b0011
  | .xor => 0b0100
  | .neg => 0b0101
  | .sub => 0b0110
  | .or => 0b1000
  | .and => 0b1001
  | .nand => 0b1010
  | .nor => 0b1011
  | .shiftL => 0b1100
  | .shiftR => 0b1101
  | .echo => 0b1111

/-- `impl TryFrom<Word> for AluOpcode`. -/
def AluOpcode.tryFrom (w : Nat) : Except String AluOpcode :=
  match w with
  | 0b0000 => .ok .add
  | 0b0001 => .ok .addCarry
  | 0b0010 => .ok .incr
  | 0b0011 => .ok .decr
  | 0b0100 => .ok .xor
  | 0b0101 => .ok .neg
  | 0b0110 => .ok .sub
  | 0b1000 => .ok .or
  | 0b1001 => .ok .and
  | 0b1010 => .ok .nand
  | 0b1011 => .ok .nor
  | 0b1100 => .ok .shiftL
  | 0b1101 => .ok .shiftR
  | 0b1111 => .ok .echo
  | other => .error ("Invalid ALU opcode: " ++ toString other)

/-- Flag selectors, `enum AluFlagRef`. -/
inductive AluFlagRef where
  | eqZero | overflowUnsigned | overflowSigned | equal
  | greaterThan | greaterThanSigned | greaterOrEqual | greaterOrEqualSigned
  | notEqual | lessThan | lessThanSigned | lessOrEqual | lessOrEqualSigned
  | false_ | true_
deriving DecidableEq

/-- `#[repr(u8)]` discriminants of `AluFlagRef`. -/
def AluFlagRef.val : AluFlagRef → Nat
  | .eqZero => 0
  | .overflowUnsigned => 1
  | .overflowSigned => 2
  | .equal => 3
  | .greaterThan => 4
  | .greaterThanSigned => 5
  | .greaterOrEqual => 6
  | .greaterOrEqualSigned => 7
  | .notEqual => 8
  | .lessThan => 9
  | .lessThanSigned => 10
  | .lessOrEqual => 11
  | .lessOrEqualSigned => 12
  | .false_ => 14
  | .true_ => 15

/-- `impl TryFrom<Word> for AluFlagRef`. -/
def AluFlagRef.tryFrom (w : Nat) : Except String AluFlagRef :=
  match w with
  | 0 => .ok .eqZero
  | 1 => .ok .overflowUnsigned
  | 2 => .ok .overflowSigned
  | 3 => .ok .equal
  | 4 => .ok .greaterThan
  | 5 => .ok .greaterThanSigned
  | 6 => .ok .greaterOrEqual
  | 7 => .ok .greaterOrEqualSigned
  | 8 => .ok .notEqual
  | 9 => .ok .lessThan
  | 10 => .ok .lessThanSigned
  | 11 => .ok .lessOrEqual
  | 12 => .ok .lessOrEqualSigned
  | 14 => .ok .false_
  | 15 => .ok .true_
  | other => .error ("Invalid flag: " ++ toString other)

/-- Stack sub-opcodes, `enum StackOpcode`. -/
inductive StackOpcode where
  | ret | push | pop | call | callC | callR | loadA | loadB | loadC | loadD
deriving DecidableEq

/-- `#[repr(u8)]` discriminants of `StackOpcode`. -/
def StackOpcode.val : StackOpcode → Nat
  | .ret => 0b0000
  | .push => 0b0001
  | .pop => 0b0010
  | .call => 0b0100
  | .callC => 0b0101
  | .callR => 0b0110
  | .loadA => 0b1000
  | .loadB => 0b1001
  | .loadC => 0b1010
  | .loadD => 0b1011

/-- `impl TryFrom<Word> for StackOpcode`. -/
def StackOpcode.tryFrom (w : Nat) : Except String StackOpcode :=
  match w with
  | 0b0000 => .ok .ret
  | 0b0001 => .ok .push
  | 0b0010 => .ok .pop
  | 0b0100 => .ok .call
  | 0b0101 => .ok .callC
  | 0b0110 => .ok .callR
  | 0b1000 => .ok .loadA
  | 0b1001 => .ok .loadB
  | 0b1010 => .ok .loadC
  | 0b1011 => .ok .loadD
  | other => .error ("Invalid stack opcode: " ++ toString other)

/-- NOP-family discriminators, `enum NopOpcode`. -/
inductive NopOpcode where
  | halt | nop
deriving DecidableEq

/-- `#[repr(u8)]` discriminants of `NopOpcode`. -/
def NopOpcode.val : NopOpcode → Nat
  | .halt => 0x00
  | .nop => 0xff

/-- `impl TryFrom<Word> for NopOpcode`. -/
def NopOpcode.tryFrom (w : Nat) : Except String NopOpcode :=
  match w with
  | 0x00 => .ok .halt
  | 0xff => .ok .nop
  | other => .error ("Invalid NOP opcode: " ++ toString other)

/-! ## Instructions -/

/-- `enum StackInstruction`. -/
inductive StackInstruction where
  | push (src : RegisterRef)
  | pop (dest : RegisterRef)
  | load (dest : RegisterRef) (bpDiff : Nat)
  | call (addrReg : RegisterRef)
  | callC (addr : Nat)
  | callR (diff : Nat)
  | ret (src : RegisterRef)
deriving DecidableEq

/-- `enum Instruction`. -/
inductive Instruction where
  | load (dest : RegisterRef) (addr : Nat)
  | loadP (dest : RegisterRef) (addrSrc : RegisterRef)
  | store (src : RegisterRef) (addr : Nat)
  | storeP (src : RegisterRef) (addrSrc : RegisterRef)
  | mov (dest : RegisterRef) (src : RegisterRef)
  | movC (dest : RegisterRef) (val : Nat)
  | jmp (flag : AluFlagRef) (addr : Nat)
  | jmpP (flag : AluFlagRef) (addrSrc : RegisterRef)
  | jmpR (flag : AluFlagRef) (diff : Nat)
  | jmpRP (flag : AluFlagRef) (diffSrc : RegisterRef)
  | stack (s : StackInstruction)
  | gpi (dest : RegisterRef)
  | gpo (src : RegisterRef)
  | alu (op : AluOpcode) (arg1 arg2 out : RegisterRef)
  | nop (n : NopOpcode)
deriving DecidableEq

/-- `impl Into<(Word, Word)> for &StackInstruction`.
The `StackInstruction::Load` arm panics in Rust for a destination outside
`A..D`; the panic is modelled as `none`. -/
def StackInstruction.intoPair : StackInstruction → Option (Nat × Nat)
  | .push src => some ((Opcode.stack.val <<< 4) ||| StackOpcode.push.val, src.val)
  | .pop dest => some ((Opcode.stack.val <<< 4) ||| StackOpcode.pop.val, dest.val)
  | .call addrReg => some ((Opcode.stack.val <<< 4) ||| StackOpcode.call.val, addrReg.val)
  | .callC addr => some ((Opcode.stack.val <<< 4) ||| StackOpcode.callC.val, addr)
  | .callR diff => some ((Opcode.stack.val <<< 4) ||| StackOpcode.callR.val, diff)
  | .ret src => some ((Opcode.stack.val <<< 4) ||| StackOpcode.ret.val, src.val)
  | .load dest bpDiff =>
    match dest with
    | .A => some ((Opcode.stack.val <<< 4) ||| StackOpcode.loadA.val, bpDiff)
    | .B => some ((Opcode.stack.val <<< 4) ||| StackOpcode.loadB.val, bpDiff)
    | .C => some ((Opcode.stack.val <<< 4) ||| StackOpcode.loadC.val, bpDiff)
    | .D => some ((Opcode.stack.val <<< 4) ||| StackOpcode.loadD.val, bpDiff)
    | _ => none

/-- `impl Into<(Word, Word)> for &Instruction`.  The ALU arm performs the
source's `u8` shifts, hence the `&&& 0xff` mask on `arg1 << 6`. -/
def Instruction.intoPair : Instruction → Option (Nat × Nat)
  | .load dest addr => some ((Opcode.load.val <<< 4) ||| dest.val, addr)
  | .loadP dest addrSrc => some ((Opcode.loadP.val <<< 4) ||| dest.val, addrSrc.val)
  | .store src addr => some ((Opcode.store.val <<< 4) ||| src.val, addr)
  | .storeP src addrSrc => some ((Opcode.storeP.val <<< 4) ||| src.val, addrSrc.val)
  | .mov dest src => some ((Opcode.mov.val <<< 4) ||| dest.val, src.val)
  | .movC dest val => some ((Opcode.movC.val <<< 4) ||| dest.val, val)
  | .jmp flag addr => some ((Opcode.jmp.val <<< 4) ||| flag.val, addr)
  | .jmpP flag addrSrc => some ((Opcode.jmpP.val <<< 4) ||| flag.val, addrSrc.val)
  | .jmpR flag diff => some ((Opcode.jmpR.val <<< 4) ||| flag.val, diff)
  | .jmpRP flag diffSrc => some ((Opcode.jmpRP.val <<< 4) ||| flag.val, diffSrc.val)
  | .stack s => s.intoPair
  | .gpi dest => some ((Opcode.gpio.val <<< 4) ||| 0x0, dest.val)
  | .gpo src => some ((Opcode.gpio.val <<< 4) ||| 0x1, src.val)
  | .alu op arg1 arg2 out =>
    some ((Opcode.alu.val <<< 4) ||| op.val,
      (((arg1.val <<< 6) &&& 0xff) ||| ((arg2.val <<< 4) &&& 0xff)) ||| out.val)
  | .nop n => some (Opcode.nop.val <<< 4, n.val)

/-- `impl TryFrom<(Word, Word)> for Instruction` (the decoder). -/
def Instruction.tryFromPair (w : Nat × Nat) : Except String Instruction := do
  let (word1, word2) := w
  let opcode ← Opcode.tryFrom (word1 >>> 4)
  match opcode with
  | .load => do
    let dest ← RegisterRef.tryFrom (word1 &&& 0xf)
    pure (.load dest word2)
  | .loadP => do
    let dest ← RegisterRef.tryFrom (word1 &&& 0xf)
    let addrSrc ← RegisterRef.tryFrom (word2 &&& 0xf)
    pure (.loadP dest addrSrc)
  | .store => do
    let src ← RegisterRef.tryFrom (word1 &&& 0xf)
    pure (.store src word2)
  | .storeP => do
    let src ← RegisterRef.tryFrom (word1 &&& 0xf)
    let addrSrc ← RegisterRef.tryFrom (word2 &&& 0xf)
    pure (.storeP src addrSrc)
  | .mov => do
    let dest ← RegisterRef.tryFrom (word1 &&& 0xf)
    let src ← RegisterRef.tryFrom word2
    pure (.mov dest src)
  | .movC => do
    let dest ← RegisterRef.tryFrom (word1 &&& 0xf)
    pure (.movC dest word2)
  | .jmp => do
    let flag ← AluFlagRef.tryFrom (word1 &&& 0xf)
    pure (.jmp flag word2)
  | .jmpP => do
    let flag ← AluFlagRef.tryFrom (word1 &&& 0xf)
    let addrSrc ← RegisterRef.tryFrom (word2 &&& 0xf)
    pure (.jmpP flag addrSrc)
  | .jmpR => do
    let flag ← AluFlagRef.tryFrom (word1 &&& 0xf)
    pure (.jmpR flag word2)
  | .jmpRP => do
    let flag ← AluFlagRef.tryFrom (word1 &&& 0xf)
    let diffSrc ← RegisterRef.tryFrom (word2 &&& 0xf)
    pure (.jmpRP flag diffSrc)
  | .stack => do
    let stackOpcode ← StackOpcode.tryFrom (word1 &&& 0xf)
    match stackOpcode with
    | .ret => do
      let src ← RegisterRef.tryFrom word2
      pure (.stack (.ret src))
    | .push => do
      let src ← RegisterRef.tryFrom word2
      pure (.stack (.push src))
    | .pop => do
      let dest ← RegisterRef.tryFrom word2
      pure (.stack (.pop dest))
    | .call => do
      let addrReg ← RegisterRef.tryFrom word2
      pure (.stack (.call addrReg))
    | .callC => pure (.stack (.callC word2))
    | .callR => pure (.stack (.callR word2))
    | .loadA => pure (.stack (.load .A word2))
    | .loadB => pure (.stack (.load .B word2))
    | .loadC => pure (.stack (.load .C word2))
    | .loadD => pure (.stack (.load .D word2))
  | .gpio =>
    match word1 &&& 0xf with
    | 0 => do
      let dest ← RegisterRef.tryFrom (word2 &&& 0xf)
      pure (.gpi dest)
    | 1 => do
      let src ← RegisterRef.tryFrom (word2 &&& 0xf)
      pure (.gpo src)
    | other => .error ("Invalid GPIO op: " ++ toString other)
  | .alu => do
    let op ← AluOpcode.tryFrom (word1 &&& 0xf)
    let arg1 ← RegisterRef.tryFrom (word2 >>> 6)
    let arg2 ← RegisterRef.tryFrom ((word2 >>> 4) &&& 0x3)
    let out ← RegisterRef.tryFrom (word2 &&& 0x3)
    pure (.alu op arg1 arg2 out)
  | .nop => do
    let n ← NopOpcode.tryFrom word2
    pure (.nop n)

/-- Well-formedness of an `Instruction` value: every raw word field is a
byte, the ALU operand/output selectors are drawn from the 2-bit set
`A..D` that the ALU byte layout can represent, and the stack-load
destination is one of the four registers the `StackOpcode::LoadA..LoadD`
encodings exist for. -/
def StackInstruction.wellFormed : StackInstruction → Bool
  | .push _ => true
  | .pop _ => true
  | .load dest bpDiff => dest.isGp && decide (bpDiff < 256)
  | .call _ => true
  | .callC addr => decide (addr < 256)
  | .callR diff => decide (diff < 256)
  | .ret _ => true

/-- Well-formedness of an instruction (see `StackInstruction.wellFormed`). -/
def Instruction.wellFormed : Instruction → Bool
  | .load _ addr => decide (addr < 256)
  | .loadP _ _ => true
  | .store _ addr => decide (addr < 256)
  | .storeP _ _ => true
  | .mov _ _ => true
  | .movC _ val => decide (val < 256)
  | .jmp _ addr => decide (addr < 256)
  | .jmpP _ _ => true
  | .jmpR _ diff => decide (diff < 256)
  | .jmpRP _ _ => true
  | .stack s => s.wellFormed
  | .gpi _ => true
  | .gpo _ => true
  | .alu _ arg1 arg2 out => arg1.isGp && arg2.isGp && out.isGp
  | .nop _ => true

/-! ## Flags and registers -/

/-- `struct AluFlags`. -/
structure AluFlags where
  eq_zero : Bool
  overflow_unsigned : Bool
  overflow_signed : Bool
  equal : Bool
  greater_than : Bool
  greater_than_signed : Bool
  greater_or_equal : Bool
  greater_or_equal_signed : Bool
  not_equal : Bool
  less_than : Bool
  less_than_signed : Bool
  less_or_equal : Bool
  less_or_equal_signed : Bool
deriving DecidableEq

/-- `AluFlags::new`. -/
def AluFlags.new : AluFlags :=
  { eq_zero := false, overflow_unsigned := false, overflow_signed := false
    equal := false, greater_than := false, greater_than_signed := false
    greater_or_equal := false, greater_or_equal_signed := false
    not_equal := false, less_than := false, less_than_signed := false
    less_or_equal := false, less_or_equal_signed := false }

/-- `AluFlags::get`. -/
def AluFlags.get (f : AluFlags) (flag : AluFlagRef) : Bool :=
  match flag with
  | .eqZero => f.eq_zero
  | .overflowUnsigned => f.overflow_unsigned
  | .overflowSigned => f.overflow_signed
  | .equal => f.equal
  | .greaterThan => f.greater_than
  | .greaterThanSigned => f.greater_than_signed
  | .greaterOrEqual => f.greater_or_equal
  | .greaterOrEqualSigned => f.greater_or_equal_signed
  | .notEqual => f.not_equal
  | .lessThan => f.less_than
  | .lessThanSigned => f.less_than_signed
  | .lessOrEqual => f.less_or_equal
  | .lessOrEqualSigned => f.less_or_equal_signed
  | .false_ => false
  | .true_ => true

/-- `AluFlags::as_word`. -/
def AluFlags.as_word (f : AluFlags) : Nat :=
  (if f.eq_zero then 0x1 else 0)
    ||| (if f.overflow_unsigned then 0x2 else 0)
    ||| (if f.overflow_signed then 0x4 else 0)
    ||| (if f.equal then 0x8 else 0)
    ||| (if f.greater_than then 0x10 else 0)
    ||| (if f.greater_than_signed then 0x20 else 0)
    ||| (if f.greater_or_equal then 0x40 else 0)
    ||| (if f.greater_or_equal_signed then 0x80 else 0)

/-- `struct Registers`.  The Rust code keeps a `HashMap<RegisterRef, Word>`
initialized with `A, B, C, D, ST, BP`; `get_mut` creates absent entries with
`or_insert(0)`.  The map is modelled as one slot per selector, all starting
at 0.  The `fl` / `ip` slots are the shadow entries that `get_mut(FL)` /
`get_mut(IP)` would create: `read_register` never consults them, and the
interpreter never calls `Registers::get` on `FL`/`IP` (the only direct `get`
calls are the ALU operand reads, whose selectors are 2-bit). -/
structure Registers where
  a : Nat
  b : Nat
  c : Nat
  d : Nat
  fl : Nat
  st : Nat
  bp : Nat
  ip : Nat
deriving DecidableEq

/-- `Registers::new` (all tracked registers start at 0). -/
def Registers.new : Registers :=
  { a := 0, b := 0, c := 0, d := 0, fl := 0, st := 0, bp := 0, ip := 0 }

/-- `Registers::get`. -/
def Registers.get (r : Registers) : RegisterRef → Nat
  | .A => r.a
  | .B => r.b
  | .C => r.c
  | .D => r.d
  | .FL => r.fl
  | .ST => r.st
  | .BP => r.bp
  | .IP => r.ip

/-- The functional form of `*Registers::get_mut(reg) = v`. -/
def Registers.set (r : Registers) (reg : RegisterRef) (v : Nat) : Registers :=
  match reg with
  | .A => { r with a := v }
  | .B => { r with b := v }
  | .C => { r with c := v }
  | .D => { r with d := v }
  | .FL => { r with fl := v }
  | .ST => { r with st := v }
  | .BP => { r with bp := v }
  | .IP => { r with ip := v }

/-! ## Bit-level ALU helpers (`to_bytes`, `from_bytes`, `add_8bit`) -/

/-- `fn to_bytes(a: u8) -> [bool; 8]`: little-endian bits,
`o[i] = ((a >> i) & 0x01) == 0x01`. -/
def to_bytes (a : Nat) : List Bool :=
  (List.range 8).map (fun i => ((a >>> i) &&& 0x01) == 0x01)

/-- `fn from_bytes(a: [bool; 8]) -> u8`: the source loop ors `1 << i` into
the accumulator for every set bit, i.e. the little-endian value. -/
def from_bytes : List Bool → Nat
  | [] => 0
  | bit :: bs => (if bit then 1 else 0) + 2 * from_bytes bs

/-- Array indexing `a[i]` on a bit vector (always in range in the source). -/
def gb (l : List Bool) (i : Nat) : Bool := l.getD i false

/-- `fn full_add`: sum and carry of a 1-bit full adder. -/
def full_add (a b c : Bool) : Bool × Bool :=
  (Bool.xor a (Bool.xor b c), (b && c) || (a && (b || c)))

/-- Sum bits of the ripple-carry loop in `add_8bit`. -/
def rippleSum : List Bool → List Bool → Bool → List Bool
  | a :: as', b :: bs, c => (full_add a b c).1 :: rippleSum as' bs (full_add a b c).2
  | _, _, _ => []

/-- Final carry of the ripple-carry loop in `add_8bit`. -/
def rippleCarry : List Bool → List Bool → Bool → Bool
  | a :: as', b :: bs, c => rippleCarry as' bs (full_add a b c).2
  | _, _, c => c

/-- `fn add_8bit(a, b, carry) -> ([bool; 8], bool, bool)`: sum bits, the
carry out of bit 7, and `prev_carry ^ carry` where `prev_carry` is the
carry *into* bit 7 — i.e. the carry left after rippling through the first
seven lanes. -/
def add_8bit (a b : List Bool) (carry : Bool) : List Bool × Bool × Bool :=
  (rippleSum a b carry, rippleCarry a b carry,
    Bool.xor (rippleCarry (a.take 7) (b.take 7) carry) (rippleCarry a b carry))

/-- The 8-way match of the `AluOpcode::ShiftL` arm on the low three bits
of `arg2` (logical left shift with zero fill). -/
def armShiftL (a1 a2 : List Bool) : List Bool :=
  match gb a2 0, gb a2 1, gb a2 2 with
  | false, false, false => a1
  | true, false, false =>
    [false, gb a1 0, gb a1 1, gb a1 2, gb a1 3, gb a1 4, gb a1 5, gb a1 6]
  | false, true, false =>
    [false, false, gb a1 0, gb a1 1, gb a1 2, gb a1 3, gb a1 4, gb a1 5]
  | true, true, false =>
    [false, false, false, gb a1 0, gb a1 1, gb a1 2, gb a1 3, gb a1 4]
  | false, false, true =>
    [false, false, false, false, gb a1 0, gb a1 1, gb a1 2, gb a1 3]
  | true, false, true =>
    [false, false, false, false, false, gb a1 0, gb a1 1, gb a1 2]
  | false, true, true =>
    [false, false, false, false, false, false, gb a1 0, gb a1 1]
  | true, true, true =>
    [false, false, false, false, false, false, false, gb a1 0]

/-- The 8-way match of the `AluOpcode::ShiftR` arm (arithmetic right shift,
replicating bit 7 of `arg1`). -/
def armShiftR (a1 a2 : List Bool) : List Bool :=
  match gb a2 0, gb a2 1, gb a2 2 with
  | false, false, false => a1
  | true, false, false =>
    [gb a1 1, gb a1 2, gb a1 3, gb a1 4, gb a1 5, gb a1 6, gb a1 7, gb a1 7]
  | false, true, false =>
    [gb a1 2, gb a1 3, gb a1 4, gb a1 5, gb a1 6, gb a1 7, gb a1 7, gb a1 7]
  | true, true, false =>
    [gb a1 3, gb a1 4, gb a1 5, gb a1 6, gb a1 7, gb a1 7, gb a1 7, gb a1 7]
  | false, false, true =>
    [gb a1 4, gb a1 5, gb a1 6, gb a1 7, gb a1 7, gb a1 7, gb a1 7, gb a1 7]
  | true, false, true =>
    [gb a1 5, gb a1 6, gb a1 7, gb a1 7, gb a1 7, gb a1 7, gb a1 7, gb a1 7]
  | false, true, true =>
    [gb a1 6, gb a1 7, gb a1 7, gb a1 7, gb a1 7, gb a1 7, gb a1 7, gb a1 7]
  | true, true, true =>
    [gb a1 7, gb a1 7, gb a1 7, gb a1 7, gb a1 7, gb a1 7, gb a1 7, gb a1 7]

/-- The bitwise loops of the Xor/Neg/Or/And/Nand/Nor arms
(`for i in 0..8 { o[i] = f(arg1[i], arg2[i]) }`). -/
def bitwise2 (f : Bool → Bool → Bool) (a1 a2 : List Bool) : List Bool :=
  (List.range 8).map (fun i => f (gb a1 i) (gb a2 i))

/-- `equal` flag loop: starts from the comparison of bit 0, then conjoins
bits 1..7. -/
def eqLoop (a1 a2 : List Bool) : Bool :=
  (List.range 7).foldl (fun acc i => acc && (gb a1 (i + 1) == gb a2 (i + 1)))
    (gb a1 0 == gb a2 0)

/-- `greater_than` flag loop: scans from bit 7 down to bit 0 keeping the
pair (greater_than, not_greater_than). -/
def gtLoop (a1 a2 : List Bool) : Bool :=
  ((List.range 8).foldl
    (fun st i =>
      (st.1 || (gb a1 (7 - i) && !(gb a2 (7 - i)) && !st.2),
       st.2 || (!(gb a1 (7 - i)) && gb a2 (7 - i))))
    (false, false)).1

/-- `greater_than_signed` flag loop: the sign bits seed the state, then
bits 6 down to 0 are scanned. -/
def gtsLoop (a1 a2 : List Bool) : Bool :=
  ((List.range 7).foldl
    (fun st i =>
      (st.1 || (gb a1 (6 - i) && !(gb a2 (6 - i)) && !st.2),
       st.2 || (!(gb a1 (6 - i)) && gb a2 (6 - i))))
    (!(gb a1 7) && gb a2 7, gb a1 7 && !(gb a2 7))).1

/-! ## Machine state and interpreter -/

/-- `struct LegComputer`. -/
structure LegComputer where
  eip : Nat
  program : List Nat
  memory : List Nat
  flags : AluFlags
  registers : Registers
  reg_i : Nat
  reg_o : Nat
deriving DecidableEq

/-- The ways a `step`/`is_halted` call can panic: a `Vec` index out of
range, or the `unwrap` of a failed instruction decode. -/
inductive Fault where
  | outOfRange (index : Nat)
  | badInstruction (msg : String)
deriving DecidableEq

/-- Read `v[i]` on a `Vec<u8>`; panics (faults) when out of range. -/
def memGet (m : List Nat) (i : Nat) : Except Fault Nat :=
  if i < m.length then .ok (m.getD i 0) else .error (.outOfRange i)

/-- Write `v[i] = x` on a `Vec<u8>`; panics (faults) when out of range. -/
def memSet (m : List Nat) (i v : Nat) : Except Fault (List Nat) :=
  if i < m.length then .ok (m.set i v) else .error (.outOfRange i)

/-- `LegComputer::new`. -/
def LegComputer.new (program memory : List Nat) : LegComputer :=
  { eip := 0, program := program, memory := memory, flags := AluFlags.new
    registers := Registers.new, reg_i := 0, reg_o := 0 }

/-- `LegComputer::read_register`. -/
def read_register (s : LegComputer) (r : RegisterRef) : Nat :=
  match r with
  | .FL => s.flags.as_word
  | .IP => s.eip
  | _ => s.registers.get r

/-- `LegComputer::stack_push`: `new_st = (ST + 255) & 0xff`, store the
value at the decremented pointer. -/
def stack_push (s : LegComputer) (v : Nat) : Except Fault LegComputer := do
  let newSt := (read_register s .ST + 255) % 256
  let m ← memSet s.memory newSt v
  pure { s with registers := s.registers.set .ST newSt, memory := m }

/-- `LegComputer::stack_pop`: read `mem[ST]`, then `ST = (ST + 1) & 0xff`. -/
def stack_pop (s : LegComputer) : Except Fault (Nat × LegComputer) := do
  let st := read_register s .ST
  let v ← memGet s.memory st
  pure (v, { s with registers := s.registers.set .ST ((st + 1) % 256) })

/-- `LegComputer::call`: push `eip`, push `BP`, `BP = ST`, jump. -/
def LegComputer.call (s : LegComputer) (addr : Nat) : Except Fault LegComputer := do
  let s1 ← stack_push s s.eip
  let s2 ← stack_push s1 (read_register s1 .BP)
  pure { s2 with registers := s2.registers.set .BP (read_register s2 .ST), eip := addr }

/-- The fetch-and-decode prefix shared by `step` and `is_halted`:
`Instruction::try_from((program[eip], program[eip+1])).unwrap()`.  Note the
program vector is indexed directly — there is no wraparound or bounds
check on `eip` against the program length. -/
def fetchInstr (s : LegComputer) : Except Fault Instruction := do
  let b1 ← memGet s.program s.eip
  let b2 ← memGet s.program (s.eip + 1)
  match Instruction.tryFromPair (b1, b2) with
  | .error msg => .error (.badInstruction msg)
  | .ok i => pure i

/-- One dispatch arm of `LegComputer::step` after the fetch.  Every store
into `eip` mirrors a `u8` result in the source (`as u8` casts and
wrapping `+= 2`), hence the explicit `% 256`. -/
def execInstr (s : LegComputer) : Instruction → Except Fault LegComputer
  | .load dest addr => do
    let v ← memGet s.memory addr
    pure { s with registers := s.registers.set dest v, eip := (s.eip + 2) % 256 }
  | .loadP dest addrSrc => do
    let v ← memGet s.memory (read_register s addrSrc)
    pure { s with registers := s.registers.set dest v, eip := (s.eip + 2) % 256 }
  | .store src addr => do
    let m ← memSet s.memory addr (read_register s src)
    pure { s with memory := m, eip := (s.eip + 2) % 256 }
  | .storeP src addrSrc => do
    let m ← memSet s.memory (read_register s addrSrc) (read_register s src)
    pure { s with memory := m, eip := (s.eip + 2) % 256 }
  | .mov dest src =>
    pure { s with registers := s.registers.set dest (read_register s src),
                  eip := (s.eip + 2) % 256 }
  | .movC dest val =>
    pure { s with registers := s.registers.set dest val, eip := (s.eip + 2) % 256 }
  | .jmp flag addr =>
    if s.flags.get flag then pure { s with eip := addr }
    else pure { s with eip := (s.eip + 2) % 256 }
  | .jmpP flag addrSrc =>
    if s.flags.get flag then do
      let v ← memGet s.memory (read_register s addrSrc)
      pure { s with eip := v }
    else pure { s with eip := (s.eip + 2) % 256 }
  | .jmpR flag diff =>
    -- `(eip as i16 + diff as i16) as u8` with both operands in 0..255
    if s.flags.get flag then pure { s with eip := (s.eip + diff) % 256 }
    else pure { s with eip := (s.eip + 2) % 256 }
  | .jmpRP flag diffSrc =>
    if s.flags.get flag then do
      let v ← memGet s.memory (read_register s diffSrc)
      pure { s with eip := (s.eip + v) % 256 }
    else pure { s with eip := (s.eip + 2) % 256 }
  | .stack si =>
    match si with
    | .ret src => do
      let currentBp := read_register s .BP
      let s0 := { s with registers := s.registers.set .ST currentBp }
      let r1 ← stack_pop s0
      let storedBp := r1.1
      let r2 ← stack_pop r1.2
      let storedIp := r2.1
      let s3 := { r2.2 with registers := r2.2.registers.set .BP storedBp }
      let s4 ← stack_push s3 (read_register s3 src)
      pure { s4 with eip := (storedIp + 2) % 256 }
    | .push src => do
      let s1 ← stack_push s (read_register s src)
      pure { s1 with eip := (s1.eip + 2) % 256 }
    | .pop dest => do
      let r ← stack_pop s
      pure { r.2 with registers := r.2.registers.set dest r.1,
                      eip := (r.2.eip + 2) % 256 }
    | .call addrReg => s.call (read_register s addrReg)
    | .callC addr => s.call addr
    | .callR diff => s.call ((s.eip + diff) % 256)
    | .load dest bpDiff => do
      let currentBp := read_register s .BP
      let loadAddr := (currentBp + bpDiff + 256) % 256
      let v ← memGet s.memory loadAddr
      pure { s with registers := s.registers.set dest v, eip := (s.eip + 2) % 256 }
  | .gpi dest =>
    pure { s with registers := s.registers.set dest s.reg_i, eip := (s.eip + 2) % 256 }
  | .gpo src =>
    pure { s with reg_o := read_register s src, eip := (s.eip + 2) % 256 }
  | .alu op arg1Addr arg2Addr out =>
    let a1 := to_bytes (s.registers.get arg1Addr)
    let a2 := to_bytes (s.registers.get arg2Addr)
    let t : LegComputer :=
      match op with
      | .add =>
        let r := add_8bit a1 a2 false
        { s with registers := s.registers.set out (from_bytes r.1),
                 flags := { s.flags with overflow_unsigned := r.2.1,
                                         overflow_signed := r.2.2 } }
      | .addCarry =>
        let r := add_8bit a1 a2 true
        { s with registers := s.registers.set out (from_bytes r.1),
                 flags := { s.flags with overflow_unsigned := r.2.1,
                                         overflow_signed := r.2.2 } }
      | .incr =>
        let r := add_8bit a1
          [true, false, false, false, false, false, false, false] false
        { s with registers := s.registers.set out (from_bytes r.1),
                 flags := { s.flags with overflow_unsigned := r.2.1,
                                         overflow_signed := r.2.2 } }
      | .decr =>
        let r := add_8bit a1
          [true, true, true, true, true, true, true, true] false
        { s with registers := s.registers.set out (from_bytes r.1),
                 flags := { s.flags with overflow_unsigned := r.2.1,
                                         overflow_signed := r.2.2 } }
      | .xor =>
        { s with registers :=
            s.registers.set out (from_bytes (bitwise2 Bool.xor a1 a2)) }
      | .neg =>
        { s with registers :=
            s.registers.set out (from_bytes ((List.range 8).map (fun i => !(gb a2 i)))) }
      | .sub =>
        let not2 := (List.range 8).map (fun i => !(gb a2 i))
        let r := add_8bit a1 not2 true
        { s with registers := s.registers.set out (from_bytes r.1),
                 flags := { s.flags with overflow_unsigned := r.2.1,
                                         overflow_signed := r.2.2 } }
      | .or =>
        { s with registers :=
            s.registers.set out (from_bytes (bitwise2 (fun x y => x || y) a1 a2)) }
      | .and =>
        { s with registers :=
            s.registers.set out (from_bytes (bitwise2 (fun x y => x && y) a1 a2)) }
      | .nand =>
        { s with registers :=
            s.registers.set out (from_bytes (bitwise2 (fun x y => !(x && y)) a1 a2)) }
      | .nor =>
        { s with registers :=
            s.registers.set out (from_bytes (bitwise2 (fun x y => !(x || y)) a1 a2)) }
      | .shiftL =>
        { s with registers := s.registers.set out (from_bytes (armShiftL a1 a2)) }
      | .shiftR =>
        { s with registers := s.registers.set out (from_bytes (armShiftR a1 a2)) }
      | .echo =>
        { s with registers := s.registers.set out (s.registers.get arg1Addr) }
    let eq := eqLoop a1 a2
    let gt := gtLoop a1 a2
    let gts := gtsLoop a1 a2
    pure { t with
      flags := { t.flags with
        eq_zero := t.registers.get out == 0
        equal := eq
        not_equal := !eq
        greater_than := gt
        greater_than_signed := gts
        greater_or_equal := gt || eq
        greater_or_equal_signed := gts || eq
        less_than := !(gt || eq)
        less_than_signed := !(gts || eq)
        less_or_equal := !gt
        less_or_equal_signed := !gts }
      eip := (t.eip + 2) % 256 }
  | .nop .nop => pure { s with eip := (s.eip + 2) % 256 }
  | .nop .halt => pure s

/-- `LegComputer::step`. -/
def step (s : LegComputer) : Except Fault LegComputer :=
  match fetchInstr s with
  | .error f => .error f
  | .ok i => execInstr s i

/-- `LegComputer::is_halted`. -/
def is_halted (s : LegComputer) : Except Fault Bool :=
  match fetchInstr s with
  | .error f => .error f
  | .ok i => .ok (i == Instruction.nop NopOpcode.halt)

/-- `LegComputer::run`, fuelled: `ok none` means the fuel ran out while
the Rust loop would still be running. -/
def runFuel : Nat → LegComputer → Except Fault (Option LegComputer)
  | 0, _ => .ok none
  | n + 1, s => do
    let h ← is_halted s
    if h then pure (some s)
    else do
      let s' ← step s
      runFuel n s'

/-! ## Assembler front end (`leg_computer_parse.rs`)

Rust's `str::lines`, `str::trim` and `str::split(" ")` are modelled
directly on character lists so that everything reduces in the kernel. -/

/-- Split a character list on a separator, keeping empty chunks
(the behaviour of Rust's `split`). -/
def splitChar (sep : Char) : List Char → List (List Char)
  | [] => [[]]
  | c :: cs =>
    if c = sep then [] :: splitChar sep cs
    else
      match splitChar sep cs with
      | [] => [[c]]
      | t :: ts => (c :: t) :: ts

/-- `str::trim`: drop leading and trailing whitespace. -/
def trimChars (cs : List Char) : List Char :=
  ((cs.dropWhile Char.isWhitespace).reverse.dropWhile Char.isWhitespace).reverse

/-- The two line filters of `assemble_program`: drop empty lines and `#`
comments (applied after trimming). -/
def keepLine (cs : List Char) : Bool :=
  match cs with
  | [] => false
  | c :: _ => c != '#'

/-- `source.lines().map(trim).filter(non-empty).filter(not a comment)`. -/
def sourceLines (src : String) : List (List Char) :=
  ((splitChar '\n' src.data).map trimChars).filter keepLine

/-- `line.split(" ")` producing the token list. -/
def lineTokens (cs : List Char) : List String :=
  (splitChar ' ' cs).map String.mk

/-- Value of a digit string (most significant digit first). -/
def digitsVal (cs : List Char) : Nat :=
  cs.foldl (fun acc c => acc * 10 + (c.toNat - 48)) 0

/-- Rust `s.parse::<i16>()`: optional sign, a non-empty run of decimal
digits, and the result must fit in `i16` (Rust's checked accumulation
rejects exactly the values outside `-32768..=32767`). -/
def parseI16 (s : String) : Option Int :=
  let p : Bool × List Char :=
    match s.data with
    | [] => (false, [])
    | c :: rest =>
      if c = '-' then (true, rest)
      else if c = '+' then (false, rest)
      else (false, c :: rest)
  if p.2.isEmpty || !(p.2.all Char.isDigit) then none
  else
    let v : Int := digitsVal p.2
    let w := if p.1 then -v else v
    if w < -32768 ∨ 32767 < w then none else some w

/-- `fn parse_word`: parse as `i16`, then `((w + 256) & 0xff) as Word`.
On the two's-complement `i16` the masked low byte equals `(w + 256) mod
256` for every representable `w` (wrapping of `w + 256` changes the value
by `2^16`, a multiple of 256). -/
def parse_word (s : String) : Except String Nat :=
  match parseI16 s with
  | none => .error ("Invalid word: " ++ s)
  | some w => .ok (((w + 256) % 256).toNat)

/-- `impl FromStr for RegisterRef`. -/
def register_from_str (s : String) : Except String RegisterRef :=
  match s with
  | "A" => .ok .A
  | "B" => .ok .B
  | "C" => .ok .C
  | "D" => .ok .D
  | "FL" => .ok .FL
  | "ST" => .ok .ST
  | "BP" => .ok .BP
  | "IP" => .ok .IP
  | other => .error ("Invalid register: " ++ other)

/-- `impl FromStr for AluOpcode`. -/
def alu_opcode_from_str (s : String) : Except String AluOpcode :=
  match s with
  | "ADD" => .ok .add
  | "ADDC" => .ok .addCarry
  | "INCR" => .ok .incr
  | "DECR" => .ok .decr
  | "XOR" => .ok .xor
  | "NEG" => .ok .neg
  | "SUB" => .ok .sub
  | "OR" => .ok .or
  | "AND" => .ok .and
  | "NAND" => .ok .nand
  | "NOR" => .ok .nor
  | "SHIFTL" => .ok .shiftL
  | "SHIFTR" => .ok .shiftR
  | "ECHO" => .ok .echo
  | other => .error ("Invalid ALU operation: " ++ other)

/-- `impl FromStr for AluFlagRef`. -/
def alu_flag_from_str (s : String) : Except String AluFlagRef :=
  match s with
  | "Z" => .ok .eqZero
  | "Ou" => .ok .overflowUnsigned
  | "Os" => .ok .overflowSigned
  | "EQ" => .ok .equal
  | "GT" => .ok .greaterThan
  | "GTs" => .ok .greaterThanSigned
  | "GE" => .ok .greaterOrEqual
  | "GEs" => .ok .greaterOrEqualSigned
  | "NE" => .ok .notEqual
  | "LT" => .ok .lessThan
  | "LTs" => .ok .lessThanSigned
  | "LE" => .ok .lessOrEqual
  | "LEs" => .ok .lessOrEqualSigned
  | "F" => .ok .false_
  | "T" => .ok .true_
  | other => .error ("Invalid flag: " ++ other)

/-- `impl FromStr for Instruction`: tokenize on single spaces and match
the mnemonic table. -/
def instruction_from_str (line : List Char) : Except String Instruction :=
  match lineTokens line with
  | ["LOAD", addr, "=>", dest] => do
    let a ← parse_word addr
    let d ← register_from_str dest
    pure (.load d a)
  | ["LOADP", addrSrc, "=>", dest] => do
    let asr ← register_from_str addrSrc
    let d ← register_from_str dest
    pure (.loadP d asr)
  | ["STORE", src, "=>", addr] => do
    let sr ← register_from_str src
    let a ← parse_word addr
    pure (.store sr a)
  | ["STOREP", src, "=>", addrSrc] => do
    let sr ← register_from_str src
    let asr ← register_from_str addrSrc
    pure (.storeP sr asr)
  | ["MOV", src, "=>", dest] => do
    let sr ← register_from_str src
    let d ← register_from_str dest
    pure (.mov d sr)
  | ["MOVC", val, "=>", dest] => do
    let v ← parse_word val
    let d ← register_from_str dest
    pure (.movC d v)
  | ["JMP", flag, "?", addr] => do
    let f ← alu_flag_from_str flag
    let a ← parse_word addr
    pure (.jmp f a)
  | ["JMPP", flag, "?", addrSrc] => do
    let f ← alu_flag_from_str flag
    let asr ← register_from_str addrSrc
    pure (.jmpP f asr)
  | ["JMPR", flag, "?", diff] => do
    let f ← alu_flag_from_str flag
    let d ← parse_word diff
    pure (.jmpR f d)
  | ["JMPRP", flag, "?", diffSrc] => do
    let f ← alu_flag_from_str flag
    let dsr ← register_from_str diffSrc
    pure (.jmpRP f dsr)
  | ["PUSH", src] => do
    let sr ← register_from_str src
    pure (.stack (.push sr))
  | ["POP", dest] => do
    let d ← register_from_str dest
    pure (.stack (.pop d))
  | ["CALL", addrReg] => do
    let r ← register_from_str addrReg
    pure (.stack (.call r))
  | ["CALLC", addr] => do
    let a ← parse_word addr
    pure (.stack (.callC a))
  | ["CALLR", diff] => do
    let d ← parse_word diff
    pure (.stack (.callR d))
  | ["RET", src] => do
    let sr ← register_from_str src
    pure (.stack (.ret sr))
  | ["SLOAD", bpDiff, "=>", dest] => do
    let d ← register_from_str dest
    let bd ← parse_word bpDiff
    pure (.stack (.load d bd))
  | ["GPI", dest, "<="] => do
    let d ← register_from_str dest
    pure (.gpi d)
  | ["GPO", src, "=>"] => do
    let sr ← register_from_str src
    pure (.gpo sr)
  | ["ALU", op, arg1, arg2, "=>", out] => do
    let o ← alu_opcode_from_str op
    let r1 ← register_from_str arg1
    let r2 ← register_from_str arg2
    let ro ← register_from_str out
    pure (.alu o r1 r2 ro)
  | ["NOP"] => pure (.nop .nop)
  | ["HALT"] => pure (.nop .halt)
  | other => .error ("Invalid instruction: " ++ toString other)

/-- Parse each retained line; the traversal stops at the first error
(Rust's `collect::<Result<Vec<_>, _>>`). -/
def assemble_lines : List (List Char) → Except String (List Instruction)
  | [] => .ok []
  | l :: ls => do
    let i ← instruction_from_str l
    let rest ← assemble_lines ls
    pure (i :: rest)

/-- `pub fn assemble_program`. -/
def assemble_program (source : String) : Except String (List Instruction) :=
  assemble_lines (sourceLines source)

/-- `pub fn generate_code`: two bytes per instruction (`none` models the
panic of encoding a stack load with a non general-purpose destination). -/
def generate_code (program : List Instruction) : Option (List Nat) := do
  let pairs ← program.mapM Instruction.intoPair
  pure (pairs.foldr (fun p acc => p.1 :: p.2 :: acc) [])

/-- `impl FromStr for LegComputer`: assemble, encode, and start with a
zeroed 256-byte memory.  The program image is *not* padded to 256 bytes. -/
def computer_from_str (source : String) : Except String (Option LegComputer) := do
  let instrs ← assemble_program source
  pure ((generate_code instrs).map
    (fun p => LegComputer.new p (List.replicate 256 0)))

/-- Canonical decimal rendering of a natural number (digit characters,
most significant first). -/
def natDigits (n : Nat) : List Char :=
  if n < 10 then [Char.ofNat (48 + n)]
  else natDigits (n / 10) ++ [Char.ofNat (48 + n % 10)]
decreasing_by omega

/-- Canonical decimal literal of an integer, as it would appear as a
token in assembly source. -/
def intLit (w : Int) : String :=
  if w < 0 then String.mk ('-' :: natDigits (-w).toNat)
  else String.mk (natDigits w.toNat)

/-! ## Small list helpers -/

/-- Reading back the cell a `memSet` just wrote. -/
theorem getD_set_self (m : List Nat) (i v : Nat) (h : i < m.length) :
    (m.set i v).getD i 0 = v := by
  simp [List.getD_eq_getElem?_getD, List.getElem?_set_self, h]

/-- Reading an untouched cell after a `memSet`. -/
theorem getD_set_ne (m : List Nat) (i j v : Nat) (h : i ≠ j) :
    (m.set i v).getD j 0 = m.getD j 0 := by
  simp [List.getD_eq_getElem?_getD, List.getElem?_set_ne h]

/-! ## Concrete machines used as witnesses and counterexamples -/

/-- A machine whose two program bytes decode to HALT. -/
def haltedMachine : LegComputer := LegComputer.new [0x00, 0x00] []

/-- A machine about to execute `MOV A => FL` (bytes `0x5C, 0x00`), with a
nonzero source register and a nonzero flag set. -/
def movFlMachine : LegComputer :=
  { LegComputer.new [0x5C, 0x00] [] with
    registers := { Registers.new with a := 7 }
    flags := { AluFlags.new with equal := true } }

/-- A machine about to execute `PUSH A` (bytes `0xB1, 0x00`). -/
def pushMachine : LegComputer :=
  { LegComputer.new [0xB1, 0x00] (List.replicate 256 0) with
    registers := { Registers.new with a := 42, st := 10 } }

/-- A machine about to execute `PUSH ST` (bytes `0xB1, 0x0D`) with ST = 5. -/
def pushStMachine : LegComputer :=
  { LegComputer.new [0xB1, 0x0D] (List.replicate 256 0) with
    registers := { Registers.new with st := 5 } }

/-- A machine about to execute `ALU XOR A B => C` (bytes `0xD4, 0x12`)
with both overflow flags set from some earlier arithmetic step. -/
def xorMachineA : LegComputer :=
  { LegComputer.new [0xD4, 0x12] [] with
    registers := { Registers.new with a := 3, b := 5 }
    flags := { AluFlags.new with overflow_unsigned := true, overflow_signed := true } }

/-- The same XOR machine with both overflow flags clear. -/
def xorMachineB : LegComputer :=
  { LegComputer.new [0xD4, 0x12] [] with
    registers := { Registers.new with a := 3, b := 5 } }

/-! ## C9: stepping a halted machine is a no-op -/

/-- Claim C9: if the two bytes at `eip` decode to HALT, `step` returns
the state unchanged (every register, flag, memory cell and GPIO port
included), `is_halted` reports `true`, and `run` (any positive fuel)
returns the state unchanged. -/
theorem C9_halt_step_noop (s : LegComputer) (n : Nat)
    (h : fetchInstr s = .ok (.nop .halt)) :
    step s = .ok s ∧ is_halted s = .ok true ∧ runFuel (n + 1) s = .ok (some s) := by
  refine ⟨?_, ?_, ?_⟩
  · simp [step, h, execInstr, pure, Except.pure]
  · simp [is_halted, h]
  · simp [runFuel, is_halted, h, Bind.bind, Except.bind, pure, Except.pure]

/-- Witness for C9 at a concrete halted machine. -/
theorem C9_witness :
    step haltedMachine = .ok haltedMachine ∧
    is_halted haltedMachine = .ok true ∧
    runFuel 1 haltedMachine = .ok (some haltedMachine) :=
  C9_halt_step_noop haltedMachine 0 (by decide)

/-! ## C10: MOV into FL or IP only touches the shadow backing entry -/

/-- Claim C10: a MOV whose destination is FL or IP writes only the shadow
backing slot: afterwards `read_register FL` is still the packed flags
word, `read_register IP` is still `eip`, the flags struct, memory, GPIO
ports and all architectural registers are unchanged, and `eip` advances
by 2.  The behaviour is the deterministic one stated by `step`'s result. -/
theorem C10_mov_readonly (s : LegComputer) (dest src : RegisterRef)
    (h : fetchInstr s = .ok (.mov dest src)) (hd : dest = .FL ∨ dest = .IP) :
    step s = .ok { s with registers := s.registers.set dest (read_register s src),
                          eip := (s.eip + 2) % 256 } ∧
    ∀ s', step s = .ok s' →
      s'.flags = s.flags ∧ s'.eip = (s.eip + 2) % 256 ∧ s'.memory = s.memory ∧
      read_register s' .FL = s'.flags.as_word ∧
      read_register s' .IP = s'.eip ∧
      s'.registers.a = s.registers.a ∧ s'.registers.b = s.registers.b ∧
      s'.registers.c = s.registers.c ∧ s'.registers.d = s.registers.d ∧
      s'.registers.st = s.registers.st ∧ s'.registers.bp = s.registers.bp ∧
      s'.reg_i = s.reg_i ∧ s'.reg_o = s.reg_o := by
  have hstep : step s = .ok { s with registers := s.registers.set dest (read_register s src),
                                     eip := (s.eip + 2) % 256 } := by
    simp [step, h, execInstr, pure, Except.pure]
  refine ⟨hstep, ?_⟩
  intro s' hs'
  rw [hstep] at hs'
  cases hs'
  rcases hd with hd | hd <;> subst hd <;>
    simp [read_register, Registers.set, Registers.get]

/-- Witness for C10 at a concrete `MOV A => FL` machine. -/
theorem C10_witness :
    step movFlMachine = .ok { movFlMachine with
      registers := movFlMachine.registers.set .FL (read_register movFlMachine .A),
      eip := 2 } ∧
    ∀ s', step movFlMachine = .ok s' →
      s'.flags = movFlMachine.flags ∧ s'.eip = (movFlMachine.eip + 2) % 256 ∧
      s'.memory = movFlMachine.memory ∧
      read_register s' .FL = s'.flags.as_word ∧
      read_register s' .IP = s'.eip ∧
      s'.registers.a = movFlMachine.registers.a ∧
      s'.registers.b = movFlMachine.registers.b ∧
      s'.registers.c = movFlMachine.registers.c ∧
      s'.registers.d = movFlMachine.registers.d ∧
      s'.registers.st = movFlMachine.registers.st ∧
      s'.registers.bp = movFlMachine.registers.bp ∧
      s'.reg_i = movFlMachine.reg_i ∧ s'.reg_o = movFlMachine.reg_o :=
  C10_mov_readonly movFlMachine .FL .A (by decide) (Or.inl rfl)

/-! ## C6: PUSH semantics (corrected: the source value is read before
the stack pointer moves) -/

/-- Counterexample to claim C6 as stated: executing `PUSH ST` with
`ST = 5` stores 5 (the value of ST *before* the decrement) into cell 4,
not the post-decrement value 4 the claim predicts. -/
theorem C6_counterexample :
    (step pushStMachine).map (fun s' => (s'.registers.st, s'.memory.getD 4 0)) =
      .ok (4, 5) ∧
    ¬ (step pushStMachine).map (fun s' => (s'.registers.st, s'.memory.getD 4 0)) =
      .ok (4, 4) := by
  constructor
  · decide
  · decide

/-- Claim C6 as amended: `PUSH src` reads `read(src)` *before* any state
change, then sets `ST` to `(ST - 1) mod 256` and stores the
previously-read value at the new `ST`; `eip` advances by 2.  With
`ST = 0` the write lands on cell 255. -/
theorem C6_amended (s : LegComputer) (src : RegisterRef)
    (h : fetchInstr s = .ok (.stack (.push src)))
    (hm : s.memory.length = 256) :
    ∃ s', step s = .ok s' ∧
      s'.registers.st = (s.registers.st + 255) % 256 ∧
      s'.memory.getD s'.registers.st 0 = read_register s src ∧
      s'.eip = (s.eip + 2) % 256 ∧
      (s.registers.st = 0 → s'.registers.st = 255) := by
  have hlt : (s.registers.st + 255) % 256 < s.memory.length := by
    rw [hm]; exact Nat.mod_lt _ (by omega)
  have hstep : step s = .ok { s with
      registers := s.registers.set .ST ((s.registers.st + 255) % 256)
      memory := s.memory.set ((s.registers.st + 255) % 256) (read_register s src)
      eip := (s.eip + 2) % 256 } := by
    simp [step, h, execInstr, stack_push, read_register, Registers.get,
      memSet, hlt, bind, Except.bind, pure, Except.pure]
  refine ⟨_, hstep, ?_, ?_, ?_, ?_⟩
  · simp [Registers.set]
  · simpa [Registers.set] using getD_set_self _ _ (read_register s src) hlt
  · simp
  · intro h0; simp [Registers.set, h0]

/-- Witness for the amended C6 at a concrete `PUSH A` machine. -/
theorem C6_witness :
    ∃ s', step pushMachine = .ok s' ∧
      s'.registers.st = (pushMachine.registers.st + 255) % 256 ∧
      s'.memory.getD s'.registers.st 0 = read_register pushMachine .A ∧
      s'.eip = (pushMachine.eip + 2) % 256 ∧
      (pushMachine.registers.st = 0 → s'.registers.st = 255) :=
  C6_amended pushMachine .A (by decide) (by decide)

/-! ## C3: non-arithmetic ALU ops and the overflow flags (corrected:
Ou and Os are left unchanged, not cleared) -/

/-- Counterexample to claim C3 as stated: an `ALU XOR` step executed
while `Ou` is set leaves `Ou` set — it is not cleared. -/
theorem C3_counterexample :
    (step xorMachineA).map (fun s' => s'.flags.overflow_unsigned) = .ok true ∧
    ¬ (step xorMachineA).map (fun s' => s'.flags.overflow_unsigned) = .ok false := by
  constructor
  · decide
  · decide

/-- Claim C3 as amended: for every ALU step whose sub-op is not
ADD/ADDC/SUB/INCR/DECR, the step leaves `Ou` and `Os` exactly as they
were before the step, and every *other* flag depends only on that step's
arguments and result: two states that agree on registers and `eip` (and
fetch the same instruction) but carry arbitrary different prior flags
produce identical non-overflow flags and identical registers. -/
theorem C3_amended (s t : LegComputer) (op : AluOpcode) (a1 a2 out : RegisterRef)
    (hop : op = .xor ∨ op = .neg ∨ op = .or ∨ op = .and ∨ op = .nand ∨
           op = .nor ∨ op = .shiftL ∨ op = .shiftR ∨ op = .echo)
    (hs : fetchInstr s = .ok (.alu op a1 a2 out))
    (ht : fetchInstr t = .ok (.alu op a1 a2 out))
    (hregs : t.registers = s.registers) :
    (step s).map (fun u => u.flags.overflow_unsigned) = .ok s.flags.overflow_unsigned ∧
    (step s).map (fun u => u.flags.overflow_signed) = .ok s.flags.overflow_signed ∧
    (step t).map (fun u => u.flags.overflow_unsigned) = .ok t.flags.overflow_unsigned ∧
    (step t).map (fun u => u.flags.overflow_signed) = .ok t.flags.overflow_signed ∧
    (∀ fr : AluFlagRef, fr ≠ .overflowUnsigned → fr ≠ .overflowSigned →
      (step s).map (fun u => u.flags.get fr) = (step t).map (fun u => u.flags.get fr)) ∧
    (step s).map (fun u => u.registers) = (step t).map (fun u => u.registers) := by
  rcases hop with h | h | h | h | h | h | h | h | h <;> subst h <;>
    refine ⟨by simp [step, hs, execInstr, Except.map, pure, Except.pure],
      by simp [step, hs, execInstr, Except.map, pure, Except.pure],
      by simp [step, ht, execInstr, Except.map, pure, Except.pure],
      by simp [step, ht, execInstr, Except.map, pure, Except.pure], ?_,
      by simp [step, hs, ht, execInstr, Except.map, pure, Except.pure, hregs]⟩ <;>
    · intro fr h1 h2
      cases fr <;>
        simp_all [step, hs, ht, execInstr, Except.map, pure, Except.pure, AluFlags.get]

/-- Witness for the amended C3: the same XOR step from two flag states. -/
theorem C3_witness :
    (step xorMachineA).map (fun u => u.flags.overflow_unsigned) =
      .ok xorMachineA.flags.overflow_unsigned ∧
    (step xorMachineA).map (fun u => u.flags.overflow_signed) =
      .ok xorMachineA.flags.overflow_signed ∧
    (step xorMachineB).map (fun u => u.flags.overflow_unsigned) =
      .ok xorMachineB.flags.overflow_unsigned ∧
    (step xorMachineB).map (fun u => u.flags.overflow_signed) =
      .ok xorMachineB.flags.overflow_signed ∧
    (∀ fr : AluFlagRef, fr ≠ .overflowUnsigned → fr ≠ .overflowSigned →
      (step xorMachineA).map (fun u => u.flags.get fr) =
        (step xorMachineB).map (fun u => u.flags.get fr)) ∧
    (step xorMachineA).map (fun u => u.registers) =
      (step xorMachineB).map (fun u => u.registers) :=
  C3_amended xorMachineA xorMachineB .xor .A .B .C (Or.inl rfl)
    (by decide) (by decide) (by decide)

/-! ## C1: encode/decode round-trip -/

/-- Claim C1: for every well-formed instruction, encoding succeeds and
decoding the two produced bytes yields exactly the original instruction:
`decode (encode i) = Ok(i)`. -/
theorem C1_roundtrip (i : Instruction) (hw : i.wellFormed = true) :
    i.intoPair.map Instruction.tryFromPair = some (.ok i) := by
  cases i with
  | load dest addr => cases dest <;> simp [Instruction.intoPair, Instruction.tryFromPair, StackInstruction.intoPair, Opcode.tryFrom, RegisterRef.tryFrom, AluFlagRef.tryFrom, StackOpcode.tryFrom, NopOpcode.tryFrom, AluOpcode.tryFrom, Opcode.val, RegisterRef.val, AluFlagRef.val, StackOpcode.val, NopOpcode.val, AluOpcode.val, bind, Except.bind, pure, Except.pure, Option.map]
  | loadP dest addrSrc => cases dest <;> cases addrSrc <;> decide
  | store src addr => cases src <;> simp [Instruction.intoPair, Instruction.tryFromPair, StackInstruction.intoPair, Opcode.tryFrom, RegisterRef.tryFrom, AluFlagRef.tryFrom, StackOpcode.tryFrom, NopOpcode.tryFrom, AluOpcode.tryFrom, Opcode.val, RegisterRef.val, AluFlagRef.val, StackOpcode.val, NopOpcode.val, AluOpcode.val, bind, Except.bind, pure, Except.pure, Option.map]
  | storeP src addrSrc => cases src <;> cases addrSrc <;> decide
  | mov dest src => cases dest <;> cases src <;> decide
  | movC dest val => cases dest <;> simp [Instruction.intoPair, Instruction.tryFromPair, StackInstruction.intoPair, Opcode.tryFrom, RegisterRef.tryFrom, AluFlagRef.tryFrom, StackOpcode.tryFrom, NopOpcode.tryFrom, AluOpcode.tryFrom, Opcode.val, RegisterRef.val, AluFlagRef.val, StackOpcode.val, NopOpcode.val, AluOpcode.val, bind, Except.bind, pure, Except.pure, Option.map]
  | jmp flag addr => cases flag <;> simp [Instruction.intoPair, Instruction.tryFromPair, StackInstruction.intoPair, Opcode.tryFrom, RegisterRef.tryFrom, AluFlagRef.tryFrom, StackOpcode.tryFrom, NopOpcode.tryFrom, AluOpcode.tryFrom, Opcode.val, RegisterRef.val, AluFlagRef.val, StackOpcode.val, NopOpcode.val, AluOpcode.val, bind, Except.bind, pure, Except.pure, Option.map]
  | jmpP flag addrSrc => cases flag <;> cases addrSrc <;> decide
  | jmpR flag diff => cases flag <;> simp [Instruction.intoPair, Instruction.tryFromPair, StackInstruction.intoPair, Opcode.tryFrom, RegisterRef.tryFrom, AluFlagRef.tryFrom, StackOpcode.tryFrom, NopOpcode.tryFrom, AluOpcode.tryFrom, Opcode.val, RegisterRef.val, AluFlagRef.val, StackOpcode.val, NopOpcode.val, AluOpcode.val, bind, Except.bind, pure, Except.pure, Option.map]
  | jmpRP flag diffSrc => cases flag <;> cases diffSrc <;> decide
  | gpi dest => cases dest <;> decide
  | gpo src => cases src <;> decide
  | nop n => cases n <;> decide
  | alu op a1 a2 o =>
    cases op <;> cases a1 <;> cases a2 <;> cases o <;>
      first
        | exact Bool.noConfusion hw
        | decide
  | stack si =>
    cases si with
    | push src => cases src <;> decide
    | pop dest => cases dest <;> decide
    | ret src => cases src <;> decide
    | call addrReg => cases addrReg <;> decide
    | callC addr => simp [Instruction.intoPair, Instruction.tryFromPair, StackInstruction.intoPair, Opcode.tryFrom, RegisterRef.tryFrom, AluFlagRef.tryFrom, StackOpcode.tryFrom, NopOpcode.tryFrom, AluOpcode.tryFrom, Opcode.val, RegisterRef.val, AluFlagRef.val, StackOpcode.val, NopOpcode.val, AluOpcode.val, bind, Except.bind, pure, Except.pure, Option.map]
    | callR diff => simp [Instruction.intoPair, Instruction.tryFromPair, StackInstruction.intoPair, Opcode.tryFrom, RegisterRef.tryFrom, AluFlagRef.tryFrom, StackOpcode.tryFrom, NopOpcode.tryFrom, AluOpcode.tryFrom, Opcode.val, RegisterRef.val, AluFlagRef.val, StackOpcode.val, NopOpcode.val, AluOpcode.val, bind, Except.bind, pure, Except.pure, Option.map]
    | load dest bpDiff =>
      cases dest <;>
        first
          | exact Bool.noConfusion hw
          | simp [Instruction.intoPair, Instruction.tryFromPair, StackInstruction.intoPair, Opcode.tryFrom, RegisterRef.tryFrom, AluFlagRef.tryFrom, StackOpcode.tryFrom, NopOpcode.tryFrom, AluOpcode.tryFrom, Opcode.val, RegisterRef.val, AluFlagRef.val, StackOpcode.val, NopOpcode.val, AluOpcode.val, bind, Except.bind, pure, Except.pure, Option.map]

/-- Witness for C1 at a concrete ALU instruction. -/
theorem C1_witness :
    (Instruction.alu .sub .A .B .C).wellFormed = true ∧
    (Instruction.alu .sub .A .B .C).intoPair.map Instruction.tryFromPair =
      some (.ok (Instruction.alu .sub .A .B .C)) :=
  ⟨by decide, C1_roundtrip _ (by decide)⟩

/-! ## C4: shift semantics (corrected: only the low three bits of arg2
participate; arg2 ≥ 8 is *not* saturated) -/

/-- Two's-complement reading of a byte. -/
def svalByte (n : Nat) : Int := if n < 128 then (n : Int) else (n : Int) - 256

/-- Register write-then-read round trip. -/
theorem Registers.get_set_self (r : Registers) (reg : RegisterRef) (v : Nat) :
    (r.set reg v).get reg = v := by
  cases reg <;> rfl

/-- The low three bits of a byte equal the low three bits of its residue
mod 8. -/
theorem to_bytes_low3 :
    ∀ y < 256, gb (to_bytes y) 0 = gb (to_bytes (y % 8)) 0 ∧
      gb (to_bytes y) 1 = gb (to_bytes (y % 8)) 1 ∧
      gb (to_bytes y) 2 = gb (to_bytes (y % 8)) 2 := by decide

/-- The ShiftL arm only inspects bits 0..2 of `arg2`. -/
theorem armShiftL_mod (a1 : List Bool) (y : Nat) (hy : y < 256) :
    armShiftL a1 (to_bytes y) = armShiftL a1 (to_bytes (y % 8)) := by
  obtain ⟨h0, h1, h2⟩ := to_bytes_low3 y hy
  unfold armShiftL
  rw [h0, h1, h2]

/-- The ShiftR arm only inspects bits 0..2 of `arg2`. -/
theorem armShiftR_mod (a1 : List Bool) (y : Nat) (hy : y < 256) :
    armShiftR a1 (to_bytes y) = armShiftR a1 (to_bytes (y % 8)) := by
  obtain ⟨h0, h1, h2⟩ := to_bytes_low3 y hy
  unfold armShiftR
  rw [h0, h1, h2]

/-- Value of the ShiftL arm: logical left shift by the 3-bit count,
truncated to a byte. -/
theorem armShiftL_val :
    ∀ x < 256, ∀ k < 8,
      from_bytes (armShiftL (to_bytes x) (to_bytes k)) = (x <<< k) % 256 := by decide

/-- Value of the ShiftR arm: arithmetic (floor) right shift of the
two's-complement value by the 3-bit count, reduced back to a byte. -/
theorem armShiftR_val :
    ∀ x < 256, ∀ k < 8,
      from_bytes (armShiftR (to_bytes x) (to_bytes k)) =
        Int.toNat ((svalByte x).fdiv (2 ^ k) % 256) := by decide

/-- A machine about to execute `ALU SHIFTL A B => C` with A = 1, B = 8. -/
def shiftMachine : LegComputer :=
  { LegComputer.new [0xDC, 0x12] [] with
    registers := { Registers.new with a := 1, b := 8 } }

/-- Counterexample to claim C4 as stated: `SHIFTL` with `arg2 = 8`
returns `arg1` (shift count `8 & 7 = 0`), not 0. -/
theorem C4_counterexample :
    (step shiftMachine).map (fun u => u.registers.get .C) = .ok 1 ∧
    ¬ (step shiftMachine).map (fun u => u.registers.get .C) = .ok 0 := by
  constructor
  · decide
  · decide

/-- Claim C4 as amended: an ALU SHIFTL step computes
`(arg1 << (arg2 & 7)) mod 256` with zero fill, and an ALU SHIFTR step
computes the arithmetic (sign-extending) right shift of `arg1` by
`arg2 & 7`; the remaining bits of `arg2` are ignored, so `arg2 ≥ 8`
behaves as `arg2 & 7` rather than producing 0 / the all-sign byte. -/
theorem C4_amended (s : LegComputer) (op : AluOpcode) (a1 a2 out : RegisterRef)
    (x y : Nat)
    (hop : op = .shiftL ∨ op = .shiftR)
    (h : fetchInstr s = .ok (.alu op a1 a2 out))
    (hx : s.registers.get a1 = x) (hy : s.registers.get a2 = y)
    (hxb : x < 256) (hyb : y < 256) :
    (op = .shiftL →
      (step s).map (fun u => u.registers.get out) = .ok ((x <<< (y % 8)) % 256)) ∧
    (op = .shiftR →
      (step s).map (fun u => u.registers.get out) =
        .ok (Int.toNat ((svalByte x).fdiv (2 ^ (y % 8)) % 256))) := by
  have hk : y % 8 < 8 := Nat.mod_lt _ (by omega)
  rcases hop with hsel | hsel <;> subst hsel
  · refine ⟨fun _ => ?_, fun hc => absurd hc (by decide)⟩
    simp only [step, h, execInstr, Except.map, pure, Except.pure, hx, hy]
    rw [Registers.get_set_self, armShiftL_mod _ y hyb, armShiftL_val x hxb _ hk]
  · refine ⟨fun hc => absurd hc (by decide), fun _ => ?_⟩
    simp only [step, h, execInstr, Except.map, pure, Except.pure, hx, hy]
    rw [Registers.get_set_self, armShiftR_mod _ y hyb, armShiftR_val x hxb _ hk]

/-- Witness for the amended C4 at the concrete `SHIFTL A B => C` machine
(A = 1, B = 8: result 1, i.e. shift count 0). -/
theorem C4_witness :
    ((.shiftL : AluOpcode) = .shiftL →
      (step shiftMachine).map (fun u => u.registers.get .C) = .ok ((1 <<< (8 % 8)) % 256)) ∧
    ((.shiftL : AluOpcode) = .shiftR →
      (step shiftMachine).map (fun u => u.registers.get .C) =
        .ok (Int.toNat ((svalByte 1).fdiv (2 ^ (8 % 8)) % 256))) :=
  C4_amended shiftMachine .shiftL .A .B .C 1 8 (Or.inl rfl)
    (by decide) (by decide) (by decide) (by decide) (by decide)

/-! ## C5: overflow flags of the arithmetic ALU ops

The ripple-carry adder `add_8bit` is characterized arithmetically: the
final carry is the unsigned-overflow test of the addition actually
performed, and `carry_into_bit7 ^ carry_out` is the two's-complement
signed-overflow test. -/

/-- A bit equals the decision of any proposition it is equivalent to. -/
theorem bool_eq_decide {b : Bool} {P : Prop} [Decidable P] (h : b = true ↔ P) :
    b = decide P := by
  cases b
  · simp only [Bool.false_eq_true, false_iff] at h
    simp [h]
  · simp only [true_iff] at h
    simp [h]

/-- One full adder preserves the value: `sum + 2·carry = a + b + c`. -/
theorem full_add_val : ∀ a b c : Bool,
    (full_add a b c).1.toNat + 2 * (full_add a b c).2.toNat =
      a.toNat + b.toNat + c.toNat := by decide

/-- Little-endian value of a bit list is below `2 ^ length`. -/
theorem from_bytes_lt : ∀ l : List Bool, from_bytes l < 2 ^ l.length := by
  intro l
  induction l with
  | nil => simp [from_bytes]
  | cons b bs ih =>
    cases b <;> simp [from_bytes, pow_succ] <;> omega

/-- The ripple sum has the common length of its inputs. -/
theorem rippleSum_length : ∀ (as' bs : List Bool) (c : Bool),
    as'.length = bs.length → (rippleSum as' bs c).length = as'.length := by
  intro as'
  induction as' with
  | nil => intro bs c _; simp [rippleSum]
  | cons a t ih =>
    intro bs c h
    cases bs with
    | nil => simp at h
    | cons b bs' =>
      have hl : t.length = bs'.length := by simpa using h
      simp [rippleSum, ih bs' (full_add a b c).2 hl]

/-- Value preservation of the ripple-carry loop:
`sum + 2^n · carry_out = a + b + carry_in`. -/
theorem ripple_val : ∀ (as' bs : List Bool) (c : Bool), as'.length = bs.length →
    from_bytes (rippleSum as' bs c) +
      2 ^ as'.length * (rippleCarry as' bs c).toNat =
      from_bytes as' + from_bytes bs + c.toNat := by
  intro as'
  induction as' with
  | nil =>
    intro bs c h
    have hb : bs = [] := List.length_eq_zero.mp h.symm
    subst hb
    cases c <;> simp [rippleSum, rippleCarry, from_bytes]
  | cons a t ih =>
    intro bs c h
    cases bs with
    | nil => simp at h
    | cons b bs' =>
      have hl : t.length = bs'.length := by simpa using h
      have ihx := ih bs' (full_add a b c).2 hl
      simp only [rippleSum, rippleCarry, from_bytes, List.length_cons, pow_succ]
      cases hK : rippleCarry t bs' ((full_add a b c).2)
      all_goals rw [hK] at ihx
      all_goals cases a <;> cases b <;> cases c <;>
        simp [full_add] at ihx ⊢ <;> omega

/-- The ripple carry-out is exactly the unsigned overflow test. -/
theorem ripple_carry_iff (as' bs : List Bool) (c : Bool)
    (h : as'.length = bs.length) :
    (rippleCarry as' bs c = true) ↔
      2 ^ as'.length ≤ from_bytes as' + from_bytes bs + c.toNat := by
  have hv := ripple_val as' bs c h
  have hb : from_bytes (rippleSum as' bs c) < 2 ^ as'.length := by
    have hlt := from_bytes_lt (rippleSum as' bs c)
    rwa [rippleSum_length as' bs c h] at hlt
  cases hc : rippleCarry as' bs c
  · rw [hc] at hv
    simp only [Bool.toNat_false, Nat.mul_zero, Nat.add_zero] at hv
    simp only [Bool.false_eq_true, false_iff]
    omega
  · rw [hc] at hv
    simp only [Bool.toNat_true, Nat.mul_one] at hv
    simp only [true_iff]
    omega

/-- Bytes round-trip through `to_bytes`/`from_bytes`. -/
theorem from_to_bytes : ∀ n < 256, from_bytes (to_bytes n) = n := by decide

/-- A byte's bit vector has eight lanes. -/
theorem to_bytes_length (n : Nat) : (to_bytes n).length = 8 := by simp [to_bytes]

/-- The value of the low seven lanes of a byte. -/
theorem take7_to_bytes_val : ∀ n < 256, from_bytes ((to_bytes n).take 7) = n % 128 := by
  decide

/-- The low seven lanes form a 7-bit vector. -/
theorem take7_to_bytes_length (n : Nat) : ((to_bytes n).take 7).length = 7 := by
  simp [to_bytes]

/-- The bitwise-complement loop of the Neg/Sub arms produces the bits of
`255 - n`. -/
theorem not_to_bytes : ∀ n < 256,
    (List.range 8).map (fun i => !(gb (to_bytes n) i)) = to_bytes (255 - n) := by
  decide

/-- Carry out of `add_8bit` on two bytes: unsigned overflow. -/
theorem add8_carry_iff (x y : Nat) (hx : x < 256) (hy : y < 256) (c : Bool) :
    (rippleCarry (to_bytes x) (to_bytes y) c = true) ↔
      256 ≤ x + y + c.toNat := by
  have h := ripple_carry_iff (to_bytes x) (to_bytes y) c
    (by rw [to_bytes_length, to_bytes_length])
  rwa [to_bytes_length, from_to_bytes x hx, from_to_bytes y hy] at h

/-- `prev_carry ^ carry` of `add_8bit` on two bytes: two's-complement
signed overflow of the addition performed. -/
theorem add8_oflS_iff (x y : Nat) (hx : x < 256) (hy : y < 256) (c : Bool) :
    (Bool.xor (rippleCarry ((to_bytes x).take 7) ((to_bytes y).take 7) c)
        (rippleCarry (to_bytes x) (to_bytes y) c) = true) ↔
      (svalByte x + svalByte y + c.toNat < -128 ∨
        127 < svalByte x + svalByte y + c.toNat) := by
  have h7 := ripple_carry_iff ((to_bytes x).take 7) ((to_bytes y).take 7) c
    (by rw [take7_to_bytes_length, take7_to_bytes_length])
  rw [take7_to_bytes_length, take7_to_bytes_val x hx, take7_to_bytes_val y hy] at h7
  have h8 := add8_carry_iff x y hx hy c
  cases hc7 : rippleCarry ((to_bytes x).take 7) ((to_bytes y).take 7) c <;>
    cases hc8 : rippleCarry (to_bytes x) (to_bytes y) c <;>
    rw [hc7] at h7 <;> rw [hc8] at h8 <;>
    simp at h7 h8 ⊢ <;>
    · unfold svalByte
      split_ifs <;> cases c <;>
        simp only [Bool.toNat_true, Bool.toNat_false] at h7 h8 ⊢ <;> omega

/-- Two's-complement value of the bitwise complement of a byte. -/
theorem sval_not (y : Nat) (hy : y < 256) : svalByte (255 - y) = -svalByte y - 1 := by
  unfold svalByte
  split_ifs <;> omega

/-- A machine about to execute `ALU DECR A A => C` with A = 0. -/
def decrMachine : LegComputer := LegComputer.new [0xD3, 0x02] []

/-- A machine about to execute `ALU SUB A B => C` with A = 5, B = 7. -/
def subMachine : LegComputer :=
  { LegComputer.new [0xD6, 0x12] [] with
    registers := { Registers.new with a := 5, b := 7 } }

/-- Counterexample to claim C5 as stated: `DECR` with argument 0 (exact
result −1, outside 0..255) leaves `Ou` *clear* — the flag is the ripple
carry-out, which for DECR is set exactly when the argument is ≥ 1. -/
theorem C5_counterexample :
    decrMachine.registers.get .A = 0 ∧
    (step decrMachine).map (fun u => u.flags.overflow_unsigned) = .ok false ∧
    ¬ (step decrMachine).map (fun u => u.flags.overflow_unsigned) = .ok true := by
  refine ⟨by decide, by decide, by decide⟩

/-- Claim C5 as amended: after an arithmetic ALU step, `Ou` is the carry
out of the 8-bit addition the unit actually performs — for ADD/ADDC/INCR
this is the claim's unsigned-range test, but for SUB it is `arg2 ≤ arg1`
(no borrow; the *negation* of the claimed `arg1 − arg2 < 0`) and for DECR
it is `1 ≤ arg1` (the negation of the claimed `arg1 = 0`); `Os` is the
two's-complement signed overflow of the exact result, as claimed. -/
theorem C5_amended (s : LegComputer) (op : AluOpcode) (a1 a2 out : RegisterRef)
    (x y : Nat)
    (h : fetchInstr s = .ok (.alu op a1 a2 out))
    (hx : s.registers.get a1 = x) (hy : s.registers.get a2 = y)
    (hxb : x < 256) (hyb : y < 256) :
    (op = .add →
      (step s).map (fun u => u.flags.overflow_unsigned) =
        .ok (decide (256 ≤ x + y)) ∧
      (step s).map (fun u => u.flags.overflow_signed) =
        .ok (decide (svalByte x + svalByte y < -128 ∨ 127 < svalByte x + svalByte y))) ∧
    (op = .addCarry →
      (step s).map (fun u => u.flags.overflow_unsigned) =
        .ok (decide (256 ≤ x + y + 1)) ∧
      (step s).map (fun u => u.flags.overflow_signed) =
        .ok (decide (svalByte x + svalByte y + 1 < -128 ∨
          127 < svalByte x + svalByte y + 1))) ∧
    (op = .incr →
      (step s).map (fun u => u.flags.overflow_unsigned) =
        .ok (decide (256 ≤ x + 1)) ∧
      (step s).map (fun u => u.flags.overflow_signed) =
        .ok (decide (svalByte x + 1 < -128 ∨ 127 < svalByte x + 1))) ∧
    (op = .decr →
      (step s).map (fun u => u.flags.overflow_unsigned) =
        .ok (decide (1 ≤ x)) ∧
      (step s).map (fun u => u.flags.overflow_signed) =
        .ok (decide (svalByte x - 1 < -128 ∨ 127 < svalByte x - 1))) ∧
    (op = .sub →
      (step s).map (fun u => u.flags.overflow_unsigned) =
        .ok (decide (y ≤ x)) ∧
      (step s).map (fun u => u.flags.overflow_signed) =
        .ok (decide (svalByte x - svalByte y < -128 ∨
          127 < svalByte x - svalByte y))) := by
  have h1bits : ([true, false, false, false, false, false, false, false] : List Bool) =
      to_bytes 1 := by decide
  have h255bits : ([true, true, true, true, true, true, true, true] : List Bool) =
      to_bytes 255 := by decide
  have hs1 : svalByte 1 = 1 := by norm_num [svalByte]
  have hs255 : svalByte 255 = -1 := by norm_num [svalByte]
  refine ⟨fun hsel => ?_, fun hsel => ?_, fun hsel => ?_, fun hsel => ?_,
    fun hsel => ?_⟩ <;> subst hsel
  · constructor
    · simp only [step, h, execInstr, Except.map, pure, Except.pure, add_8bit, hx, hy]
      congr 1
      apply bool_eq_decide
      have hc := add8_carry_iff x y hxb hyb false
      simpa using hc
    · simp only [step, h, execInstr, Except.map, pure, Except.pure, add_8bit, hx, hy]
      congr 1
      apply bool_eq_decide
      have hc := add8_oflS_iff x y hxb hyb false
      simpa using hc
  · constructor
    · simp only [step, h, execInstr, Except.map, pure, Except.pure, add_8bit, hx, hy]
      congr 1
      apply bool_eq_decide
      have hc := add8_carry_iff x y hxb hyb true
      simpa using hc
    · simp only [step, h, execInstr, Except.map, pure, Except.pure, add_8bit, hx, hy]
      congr 1
      apply bool_eq_decide
      have hc := add8_oflS_iff x y hxb hyb true
      simpa using hc
  · constructor
    · simp only [step, h, execInstr, Except.map, pure, Except.pure, add_8bit, hx, h1bits]
      congr 1
      apply bool_eq_decide
      have hc := add8_carry_iff x 1 hxb (by omega) false
      simpa using hc
    · simp only [step, h, execInstr, Except.map, pure, Except.pure, add_8bit, hx, h1bits]
      congr 1
      apply bool_eq_decide
      have hc := add8_oflS_iff x 1 hxb (by omega) false
      simpa [hs1] using hc
  · constructor
    · simp only [step, h, execInstr, Except.map, pure, Except.pure, add_8bit, hx, h255bits]
      congr 1
      apply bool_eq_decide
      have hc := add8_carry_iff x 255 hxb (by omega) false
      rw [hc]
      simp only [Bool.toNat_false]
      omega
    · simp only [step, h, execInstr, Except.map, pure, Except.pure, add_8bit, hx, h255bits]
      congr 1
      apply bool_eq_decide
      have hc := add8_oflS_iff x 255 hxb (by omega) false
      rw [hc, hs255]
      simp only [Bool.toNat_false]
      constructor <;> (intro hq; omega)
  · constructor
    · simp only [step, h, execInstr, Except.map, pure, Except.pure, add_8bit, hx, hy,
        not_to_bytes y hyb]
      congr 1
      apply bool_eq_decide
      have hc := add8_carry_iff x (255 - y) hxb (by omega) true
      rw [hc]
      simp only [Bool.toNat_true]
      omega
    · simp only [step, h, execInstr, Except.map, pure, Except.pure, add_8bit, hx, hy,
        not_to_bytes y hyb]
      congr 1
      apply bool_eq_decide
      have hc := add8_oflS_iff x (255 - y) hxb (by omega) true
      rw [hc, sval_not y hyb]
      simp only [Bool.toNat_true]
      constructor <;> (intro hq; omega)

/-- Witness for the amended C5 at the concrete `SUB A B => C` machine
(A = 5, B = 7: no carry out, so Ou is false although 5 − 7 < 0). -/
theorem C5_witness :
    ((.sub : AluOpcode) = .add →
      (step subMachine).map (fun u => u.flags.overflow_unsigned) =
        .ok (decide (256 ≤ 5 + 7)) ∧
      (step subMachine).map (fun u => u.flags.overflow_signed) =
        .ok (decide (svalByte 5 + svalByte 7 < -128 ∨ 127 < svalByte 5 + svalByte 7))) ∧
    ((.sub : AluOpcode) = .addCarry →
      (step subMachine).map (fun u => u.flags.overflow_unsigned) =
        .ok (decide (256 ≤ 5 + 7 + 1)) ∧
      (step subMachine).map (fun u => u.flags.overflow_signed) =
        .ok (decide (svalByte 5 + svalByte 7 + 1 < -128 ∨
          127 < svalByte 5 + svalByte 7 + 1))) ∧
    ((.sub : AluOpcode) = .incr →
      (step subMachine).map (fun u => u.flags.overflow_unsigned) =
        .ok (decide (256 ≤ 5 + 1)) ∧
      (step subMachine).map (fun u => u.flags.overflow_signed) =
        .ok (decide (svalByte 5 + 1 < -128 ∨ 127 < svalByte 5 + 1))) ∧
    ((.sub : AluOpcode) = .decr →
      (step subMachine).map (fun u => u.flags.overflow_unsigned) =
        .ok (decide (1 ≤ 5)) ∧
      (step subMachine).map (fun u => u.flags.overflow_signed) =
        .ok (decide (svalByte 5 - 1 < -128 ∨ 127 < svalByte 5 - 1))) ∧
    ((.sub : AluOpcode) = .sub →
      (step subMachine).map (fun u => u.flags.overflow_unsigned) =
        .ok (decide (7 ≤ 5)) ∧
      (step subMachine).map (fun u => u.flags.overflow_signed) =
        .ok (decide (svalByte 5 - svalByte 7 < -128 ∨
          127 < svalByte 5 - svalByte 7))) :=
  C5_amended subMachine .sub .A .B .C 5 7 (by decide) (by decide) (by decide)
    (by decide) (by decide)

/-! ## C2: totality of `step` / `is_halted` (corrected: the program
vector is indexed without bounds check, so an `eip` at or beyond the
assembled program's length is an out-of-range access, not a wrap) -/

/-- Decoding any byte pair yields a well-formed instruction: all word
fields come from the second byte, the ALU operand selectors are the
2-bit fields `b2 >> 6`, `(b2 >> 4) & 3`, `b2 & 3`, and the stack-load
destinations are the literal `A..D`. -/
theorem decode_wf (b1 b2 : Nat) (hb2 : b2 < 256) (i : Instruction)
    (hdec : Instruction.tryFromPair (b1, b2) = .ok i) : i.wellFormed = true := by
  have hgp : ∀ n : Nat, n < 4 → ∀ r, RegisterRef.tryFrom n = .ok r →
      r.isGp = true := by
    intro n hn r h
    interval_cases n <;>
      (simp only [RegisterRef.tryFrom, Except.ok.injEq] at h; subst h; rfl)
  have h6 : b2 >>> 6 < 4 := by
    rw [Nat.shiftRight_eq_div_pow]; omega
  have h4 : (b2 >>> 4) &&& 3 < 4 := by
    have := Nat.and_le_right (n := b2 >>> 4) (m := 3); omega
  have h0 : b2 &&& 3 < 4 := by
    have := Nat.and_le_right (n := b2) (m := 3); omega
  simp only [Instruction.tryFromPair, bind, Except.bind, pure, Except.pure] at hdec
  repeat' split at hdec
  all_goals first
    | exact Except.noConfusion hdec
    | (obtain rfl := Except.ok.inj hdec
       simp only [Instruction.wellFormed, StackInstruction.wellFormed,
         RegisterRef.isGp, decide_eq_true_eq, Bool.and_eq_true, Bool.true_and,
         Bool.and_true]
       all_goals first
         | rfl
         | trivial
         | exact hb2
         | exact ⟨⟨hgp _ h6 _ (by assumption), hgp _ h4 _ (by assumption)⟩,
             hgp _ h0 _ (by assumption)⟩)

/-- The packed flags word is a byte. -/
theorem as_word_lt (f : AluFlags) : f.as_word < 256 := by
  unfold AluFlags.as_word
  have h2 : (256 : Nat) = 2 ^ 8 := by norm_num
  rw [h2]
  repeat' apply Nat.or_lt_two_pow
  all_goals split <;> norm_num

/-- Machine-state well-formedness: the invariants every state built of
`u8` fields satisfies in Rust, plus the 256-byte memory of
`LegComputer::from_str`. -/
def WFState (s : LegComputer) : Prop :=
  s.eip < 256 ∧ s.memory.length = 256 ∧
  (∀ r : RegisterRef, s.registers.get r < 256) ∧
  (∀ b ∈ s.program, b < 256)

/-- Every register read yields a byte on a well-formed state. -/
theorem read_register_lt (s : LegComputer) (heip : s.eip < 256)
    (hreg : ∀ r : RegisterRef, s.registers.get r < 256) (r : RegisterRef) :
    read_register s r < 256 := by
  cases r <;> first
    | exact as_word_lt s.flags
    | exact heip
    | simpa [read_register] using hreg _

/-- On a well-formed state, executing any well-formed instruction cannot
fault: every memory index the interpreter forms is reduced mod 256. -/
theorem exec_ok (s : LegComputer) (i : Instruction)
    (heip : s.eip < 256) (hmem : s.memory.length = 256)
    (hreg : ∀ r : RegisterRef, s.registers.get r < 256)
    (hiw : i.wellFormed = true) : ∀ f, execInstr s i ≠ .error f := by
  intro f
  have hm : ∀ n : Nat, n % 256 < s.memory.length := fun n => by
    have := Nat.mod_lt n (show 0 < 256 by omega); omega
  have hrr : ∀ r : RegisterRef, read_register s r < s.memory.length := fun r => by
    have := read_register_lt s heip hreg r; omega
  cases i with
  | load dest addr =>
    have ha : addr < s.memory.length := by
      have : addr < 256 := by simpa [Instruction.wellFormed] using hiw
      omega
    simp [execInstr, memGet, ha, bind, Except.bind, pure, Except.pure]
  | loadP dest addrSrc =>
    simp [execInstr, memGet, hrr addrSrc, bind, Except.bind, pure, Except.pure]
  | store src addr =>
    have ha : addr < s.memory.length := by
      have : addr < 256 := by simpa [Instruction.wellFormed] using hiw
      omega
    simp [execInstr, memSet, ha, bind, Except.bind, pure, Except.pure]
  | storeP src addrSrc =>
    simp [execInstr, memSet, hrr addrSrc, bind, Except.bind, pure, Except.pure]
  | mov dest src => simp [execInstr, pure, Except.pure]
  | movC dest val => simp [execInstr, pure, Except.pure]
  | jmp flag addr =>
    cases hb : s.flags.get flag <;>
      simp [execInstr, hb, pure, Except.pure]
  | jmpP flag addrSrc =>
    cases hb : s.flags.get flag
    · simp [execInstr, hb, pure, Except.pure]
    · simp [execInstr, hb, memGet, hrr addrSrc, bind, Except.bind,
        pure, Except.pure]
  | jmpR flag diff =>
    cases hb : s.flags.get flag <;>
      simp [execInstr, hb, pure, Except.pure]
  | jmpRP flag diffSrc =>
    cases hb : s.flags.get flag
    · simp [execInstr, hb, pure, Except.pure]
    · simp [execInstr, hb, memGet, hrr diffSrc, bind, Except.bind,
        pure, Except.pure]
  | gpi dest => simp [execInstr, pure, Except.pure]
  | gpo src => simp [execInstr, pure, Except.pure]
  | alu op a1 a2 out => simp [execInstr, pure, Except.pure]
  | nop n => cases n <;> simp [execInstr, pure, Except.pure]
  | stack si =>
    cases si with
    | push src =>
      simp [execInstr, stack_push, memSet, hm, bind, Except.bind,
        pure, Except.pure]
    | pop dest =>
      simp [execInstr, stack_pop, memGet, hrr RegisterRef.ST, bind,
        Except.bind, pure, Except.pure]
    | call addrReg =>
      simp [execInstr, LegComputer.call, stack_push, memSet, hm,
        read_register, Registers.get, Registers.set, bind, Except.bind,
        pure, Except.pure]
    | callC addr =>
      simp [execInstr, LegComputer.call, stack_push, memSet, hm,
        read_register, Registers.get, Registers.set, bind, Except.bind,
        pure, Except.pure]
    | callR diff =>
      simp [execInstr, LegComputer.call, stack_push, memSet, hm,
        read_register, Registers.get, Registers.set, bind, Except.bind,
        pure, Except.pure]
    | ret src =>
      have hbp : s.registers.bp < s.memory.length := by
        have := hreg RegisterRef.BP; simp [Registers.get] at this; omega
      simp [execInstr, stack_pop, stack_push, memGet, memSet, hm, hbp,
        read_register, Registers.get, Registers.set, bind, Except.bind,
        pure, Except.pure]
    | load dest bpDiff =>
      simp [execInstr, memGet, hm, bind, Except.bind, pure, Except.pure]

/-- Claim C2 as amended: on a well-formed state whose `eip + 1` is still
inside the program vector, `step()` and `is_halted()` can only fail with
a decode error at fetch — all memory accesses are in range because every
address is reduced mod 256 against the 256-cell memory.  (The claim's
universal totality over `eip` in 0..255 is refuted by
`C2_counterexample`: the *program* vector is indexed without wrapping,
so `eip` at or beyond the assembled program's length faults.) -/
theorem C2_amended (s : LegComputer) (hwf : WFState s)
    (hfetch : s.eip + 1 < s.program.length) :
    (∀ f, is_halted s = .error f → ∃ msg, f = .badInstruction msg) ∧
    (∀ f, step s = .error f → ∃ msg, f = .badInstruction msg) := by
  obtain ⟨heip, hmem, hreg, hprog⟩ := hwf
  have h1 : s.eip < s.program.length := by omega
  have hb1 : memGet s.program s.eip = .ok (s.program.getD s.eip 0) := by
    simp [memGet, h1]
  have hb2 : memGet s.program (s.eip + 1) = .ok (s.program.getD (s.eip + 1) 0) := by
    simp [memGet, hfetch]
  cases hdec : Instruction.tryFromPair
      (s.program.getD s.eip 0, s.program.getD (s.eip + 1) 0) with
  | error msg =>
    have hf : fetchInstr s = .error (.badInstruction msg) := by
      simp only [fetchInstr, bind, Except.bind, hb1, hb2, hdec]
    constructor
    · intro f hfl
      simp only [is_halted, hf] at hfl
      exact ⟨msg, (Except.error.inj hfl).symm⟩
    · intro f hfl
      simp only [step, hf] at hfl
      exact ⟨msg, (Except.error.inj hfl).symm⟩
  | ok i =>
    have hf : fetchInstr s = .ok i := by
      simp only [fetchInstr, bind, Except.bind, hb1, hb2, hdec, pure, Except.pure]
    have hby2 : s.program.getD (s.eip + 1) 0 < 256 := by
      rw [List.getD_eq_getElem _ _ hfetch]
      exact hprog _ (List.getElem_mem hfetch)
    have hiw : i.wellFormed = true := decode_wf _ _ hby2 i hdec
    have hne := exec_ok s i heip hmem hreg hiw
    constructor
    · intro f hfl
      simp [is_halted, hf] at hfl
    · intro f hfl
      rw [step, hf] at hfl
      exact absurd hfl (hne f)

/-- The machine `LegComputer::from_str` builds from the source `"NOP"`:
a two-byte program and a zeroed 256-byte memory. -/
def nopMachine : LegComputer :=
  LegComputer.new [0x00, 0xff] (List.replicate 256 0)

/-- `nopMachine` after one step: `eip = 2`, one past its program. -/
def nopStepped : LegComputer := { nopMachine with eip := 2 }

/-- Counterexample to claim C2 as stated: the machine assembled from
`"NOP"` steps to `eip = 2` (within 0..255, at the program's length), and
there both `is_halted()` and `step()` fail with an out-of-range *program*
access — a fault that is not a decode failure.  Program indexing does not
wrap mod 256. -/
theorem C2_counterexample :
    computer_from_str "NOP" = .ok (some nopMachine) ∧
    step nopMachine = .ok nopStepped ∧
    nopStepped.eip = 2 ∧ nopStepped.eip < 256 ∧
    nopStepped.program.length = 2 ∧
    is_halted nopStepped = .error (.outOfRange 2) ∧
    step nopStepped = .error (.outOfRange 2) ∧
    Fault.outOfRange 2 ≠ Fault.badInstruction "Invalid opcode: 0" := by
  refine ⟨by decide, by decide, by decide, by decide, by decide, by decide,
    by decide, by decide⟩

/-- Witness for the amended C2 at the concrete `"NOP"` machine before
its step. -/
theorem C2_witness :
    (∀ f, is_halted nopMachine = .error f → ∃ msg, f = .badInstruction msg) ∧
    (∀ f, step nopMachine = .error f → ∃ msg, f = .badInstruction msg) :=
  C2_amended nopMachine
    ⟨by decide, by decide, fun r => by cases r <;> decide, by decide⟩
    (by decide)

/-! ## C7: call/ret discipline -/

/-- For general-purpose selectors, `read_register` is the plain register
file read. -/
theorem read_register_gp (s : LegComputer) (r : RegisterRef) (h : r.isGp = true) :
    read_register s r = s.registers.get r := by
  cases r <;> first
    | rfl
    | exact Bool.noConfusion h

/-- Explicit result of `LegComputer::call`: push `eip`, push `BP`,
`BP = ST`, jump. -/
theorem call_eq (s : LegComputer) (tgt : Nat) (hmem : s.memory.length = 256) :
    LegComputer.call s tgt = .ok { s with
      registers := ((s.registers.set .ST ((s.registers.st + 255) % 256)).set .ST
          (((s.registers.st + 255) % 256 + 255) % 256)).set .BP
          (((s.registers.st + 255) % 256 + 255) % 256)
      memory := (s.memory.set ((s.registers.st + 255) % 256) s.eip).set
          (((s.registers.st + 255) % 256 + 255) % 256) s.registers.bp
      eip := tgt } := by
  have hm : ∀ n : Nat, n % 256 < s.memory.length := fun n => by
    have := Nat.mod_lt n (show 0 < 256 by omega); omega
  simp [LegComputer.call, stack_push, memSet, read_register, Registers.get,
    Registers.set, hm, bind, Except.bind, pure, Except.pure]

/-- A machine whose program is `CALLC 4; HALT; RET A` with A = 9, and a
caller frame `ST = 0`, `BP = 77`. -/
def callMachine : LegComputer :=
  { LegComputer.new [0xB5, 0x04, 0x00, 0x00, 0xB0, 0x00] (List.replicate 256 0) with
    registers := { Registers.new with a := 9, bp := 77 } }

/-- `callMachine` after executing the `CALLC 4`. -/
def callMachine1 : LegComputer :=
  { callMachine with
    eip := 4
    registers := { Registers.new with a := 9, st := 254, bp := 254 }
    memory := ((List.replicate 256 0).set 255 0).set 254 77 }

/-- Claim C7: a CALL/CALLC/CALLR at address `p = s.eip` pushes `p` and
the caller's BP, points BP at the new frame and jumps to the target; a
later `RET src` executed in any state `s2` that still has that BP and
the two frame cells intact returns to `(p + 2) mod 256`, restores the
caller's BP, and leaves the callee's `read(src)` in the topmost stack
cell `mem[ST]`. -/
theorem C7_call_ret (s s2 : LegComputer) (ci : StackInstruction) (tgt : Nat)
    (src : RegisterRef)
    (hmem : s.memory.length = 256)
    (hfetch : fetchInstr s = .ok (.stack ci))
    (hci : (∃ areg, ci = .call areg ∧ tgt = read_register s areg) ∨
           ci = .callC tgt ∨
           (∃ dv, ci = .callR dv ∧ tgt = (s.eip + dv) % 256))
    (hmem2 : s2.memory.length = 256)
    (hfetch2 : fetchInstr s2 = .ok (.stack (.ret src)))
    (hsrc : src.isGp = true)
    (hbp2 : s2.registers.bp = (s.registers.st + 254) % 256)
    (hcellbp : s2.memory.getD ((s.registers.st + 254) % 256) 0 = s.registers.bp)
    (hcellip : s2.memory.getD ((s.registers.st + 255) % 256) 0 = s.eip) :
    (∃ s1, step s = .ok s1 ∧ s1.eip = tgt ∧
      s1.registers.bp = (s.registers.st + 254) % 256 ∧
      s1.registers.st = (s.registers.st + 254) % 256 ∧
      s1.memory.getD ((s.registers.st + 254) % 256) 0 = s.registers.bp ∧
      s1.memory.getD ((s.registers.st + 255) % 256) 0 = s.eip) ∧
    (∃ s3, step s2 = .ok s3 ∧ s3.eip = (s.eip + 2) % 256 ∧
      s3.registers.bp = s.registers.bp ∧
      s3.registers.st = (s.registers.st + 255) % 256 ∧
      s3.memory.getD s3.registers.st 0 = s2.registers.get src) := by
  have hm2 : ∀ n : Nat, n % 256 < s2.memory.length := fun n => by
    have := Nat.mod_lt n (show 0 < 256 by omega); omega
  have hieq : ((s.registers.st + 255) % 256 + 255) % 256 =
      (s.registers.st + 254) % 256 := by omega
  have hstep1 : step s = LegComputer.call s tgt := by
    rcases hci with ⟨areg, rfl, rfl⟩ | rfl | ⟨dv, rfl, rfl⟩ <;>
      simp [step, hfetch, execInstr]
  constructor
  · rw [hstep1, call_eq s tgt hmem]
    refine ⟨_, rfl, rfl, ?_, ?_, ?_, ?_⟩
    · simp [Registers.set]
      omega
    · simp [Registers.set]
      omega
    · rw [← hieq]
      exact getD_set_self _ _ _ (by simp [hmem]; omega)
    · rw [getD_set_ne _ _ _ _ (by omega)]
      exact getD_set_self _ _ _ (by simp [hmem]; omega)
  · have hlt1 : s2.registers.bp < s2.memory.length := by
      rw [hbp2, hmem2]; omega
    have hc1 : s2.memory.getD s2.registers.bp 0 = s.registers.bp := by
      rw [hbp2]; exact hcellbp
    have hc2 : s2.memory.getD ((s2.registers.bp + 1) % 256) 0 = s.eip := by
      rw [hbp2, show ((s.registers.st + 254) % 256 + 1) % 256 =
        (s.registers.st + 255) % 256 from by omega]
      exact hcellip
    rcases hstep : step s2 with f | s3
    · exfalso
      revert hstep
      cases src <;> first
        | exact fun h => Bool.noConfusion hsrc
        | simp [step, hfetch2, execInstr, stack_pop, stack_push, memGet, memSet,
            read_register, Registers.get, Registers.set, hlt1, hm2, bind,
            Except.bind, pure, Except.pure]
    · refine ⟨s3, rfl, ?_⟩
      cases src
      case FL => exact Bool.noConfusion hsrc
      case ST => exact Bool.noConfusion hsrc
      case BP => exact Bool.noConfusion hsrc
      case IP => exact Bool.noConfusion hsrc
      all_goals
        simp only [step, hfetch2, execInstr, stack_pop, stack_push, memGet, memSet,
          read_register, Registers.get, Registers.set, hc1, hc2, bind,
          Except.bind, pure, Except.pure, List.length_set, hlt1, hm2, if_pos,
          if_true] at hstep
      all_goals (obtain rfl := Except.ok.inj hstep; refine ⟨rfl, rfl, ?_, ?_⟩)
      all_goals first
        | (dsimp only; rw [hbp2]; omega)
        | exact getD_set_self _ _ _ (hm2 _)

/-- Witness for C7: the concrete `CALLC 4` / `RET A` machine. -/
theorem C7_witness :
    (∃ s1, step callMachine = .ok s1 ∧ s1.eip = 4 ∧
      s1.registers.bp = (callMachine.registers.st + 254) % 256 ∧
      s1.registers.st = (callMachine.registers.st + 254) % 256 ∧
      s1.memory.getD ((callMachine.registers.st + 254) % 256) 0 =
        callMachine.registers.bp ∧
      s1.memory.getD ((callMachine.registers.st + 255) % 256) 0 =
        callMachine.eip) ∧
    (∃ s3, step callMachine1 = .ok s3 ∧
      s3.eip = (callMachine.eip + 2) % 256 ∧
      s3.registers.bp = callMachine.registers.bp ∧
      s3.registers.st = (callMachine.registers.st + 255) % 256 ∧
      s3.memory.getD s3.registers.st 0 = callMachine1.registers.get .A) :=
  C7_call_ret callMachine callMachine1 (.callC 4) 4 .A (by decide) (by decide)
    (Or.inr (Or.inl rfl)) (by decide) (by decide) (by decide) (by decide)
    (by decide) (by decide)

/-! ## C8: assembler integer-literal range (corrected: any `i16` literal
is accepted and reduced mod 256; only non-decimal or out-of-i16 literals
error) -/

/-- Unfolding one step of the decimal accumulator. -/
theorem digitsVal_acc (cs : List Char) (acc : Nat) :
    cs.foldl (fun a c => a * 10 + (c.toNat - 48)) acc =
      acc * 10 ^ cs.length + digitsVal cs := by
  induction cs generalizing acc with
  | nil => simp [digitsVal]
  | cons c cs ih =>
    simp only [List.foldl_cons, List.length_cons, digitsVal]
    rw [ih (acc * 10 + (c.toNat - 48)), ih (0 * 10 + (c.toNat - 48))]
    ring

/-- The canonical digit string of a natural number is a non-empty run of
digit characters whose decimal value is the number itself. -/
theorem natDigits_spec : ∀ n : Nat,
    natDigits n ≠ [] ∧ (∀ c ∈ natDigits n, c.isDigit = true) ∧
      digitsVal (natDigits n) = n := by
  intro n
  induction n using Nat.strong_induction_on with
  | _ n ih =>
    by_cases h : n < 10
    · unfold natDigits
      rw [if_pos h]
      refine ⟨by simp, ?_, ?_⟩
      · intro c hc
        simp only [List.mem_singleton] at hc
        subst hc
        interval_cases n <;> decide
      · interval_cases n <;> decide
    · unfold natDigits
      rw [if_neg h]
      obtain ⟨hne, hdig, hval⟩ := ih (n / 10) (by omega)
      have h10 : n % 10 < 10 := Nat.mod_lt _ (by omega)
      refine ⟨by simp, ?_, ?_⟩
      · intro c hc
        rcases List.mem_append.mp hc with hc | hc
        · exact hdig c hc
        · simp only [List.mem_singleton] at hc
          subst hc
          revert h10
          generalize n % 10 = m
          intro h10
          interval_cases m <;> decide
      · have hch : (Char.ofNat (48 + n % 10)).toNat - 48 = n % 10 := by
          revert h10
          generalize n % 10 = m
          intro h10
          interval_cases m <;> decide
        simp only [digitsVal, List.foldl_append, List.foldl_cons, List.foldl_nil]
        have hv : (natDigits (n / 10)).foldl
            (fun a c => a * 10 + (c.toNat - 48)) 0 = n / 10 := hval
        rw [hv, hch]
        omega

/-- `i16` parsing inverts the canonical literal: in-range values are
read back, out-of-range values are rejected. -/
theorem parseI16_intLit (w : Int) :
    parseI16 (intLit w) =
      if w < -32768 ∨ 32767 < w then none else some w := by
  rcases Int.lt_or_le w 0 with hneg | hpos
  · obtain ⟨hne, hdig, hval⟩ := natDigits_spec (-w).toNat
    have hemp : (natDigits (-w).toNat).isEmpty = false := by
      cases hq : natDigits (-w).toNat
      · exact absurd hq hne
      · rfl
    have hall : (natDigits (-w).toNat).all Char.isDigit = true :=
      List.all_eq_true.mpr hdig
    have hvi : (digitsVal (natDigits (-w).toNat) : Int) = -w := by
      rw [hval]; omega
    simp only [intLit, if_pos hneg]
    simp [parseI16, hemp, hall, hvi]
  · obtain ⟨hne, hdig, hval⟩ := natDigits_spec w.toNat
    have hvi : (digitsVal (natDigits w.toNat) : Int) = w := by
      rw [hval]; omega
    rcases hq : natDigits w.toNat with _ | ⟨c, cs⟩
    · exact absurd hq hne
    · have hcdig : c.isDigit = true := by
        apply hdig; rw [hq]; simp
      have hc1 : ¬(c = '-') := fun hh => by
        subst hh; exact absurd hcdig (by decide)
      have hc2 : ¬(c = '+') := fun hh => by
        subst hh; exact absurd hcdig (by decide)
      have hall : (c :: cs).all Char.isDigit = true := by
        rw [← hq]; exact List.all_eq_true.mpr hdig
      rw [hq] at hvi
      simp only [intLit, if_neg (by omega : ¬ w < 0)]
      simp [parseI16, hq, hc1, hc2, hall, hvi]

/-- In-range literals are accepted and reduced mod 256. -/
theorem parse_word_intLit_ok (w : Int) (h1 : -32768 ≤ w) (h2 : w ≤ 32767) :
    parse_word (intLit w) = .ok ((w % 256).toNat) := by
  unfold parse_word
  rw [parseI16_intLit, if_neg (by omega)]
  show Except.ok ((w + 256) % 256).toNat = Except.ok (w % 256).toNat
  have hmod : (w + 256) % 256 = w % 256 := by omega
  rw [hmod]

/-- Out-of-`i16` literals are rejected with the line's parse error. -/
theorem parse_word_intLit_err (w : Int) (h : w < -32768 ∨ 32767 < w) :
    parse_word (intLit w) = .error ("Invalid word: " ++ intLit w) := by
  unfold parse_word
  rw [parseI16_intLit, if_pos h]

/-- The line traversal of `assemble_program` stops at the first failing
line and returns its error. -/
theorem assemble_lines_first_error (bad : List Char) (rest : List (List Char))
    (e : String) :
    ∀ good : List (List Char),
      (∀ l ∈ good, ∃ i, instruction_from_str l = .ok i) →
      instruction_from_str bad = .error e →
      assemble_lines (good ++ bad :: rest) = .error e := by
  intro good
  induction good with
  | nil =>
    intro _ hbad
    simp [assemble_lines, hbad, bind, Except.bind]
  | cons g gs ih =>
    intro hgood hbad
    obtain ⟨i, hi⟩ := hgood g (by simp)
    have htail := ih (fun l hl => hgood l (by simp [hl])) hbad
    rw [List.cons_append]
    simp [assemble_lines, hi, htail, bind, Except.bind]

/-- Counterexample to claim C8 as stated: the literal 300 lies outside
-128..255, yet the line assembles successfully, with the value reduced
mod 256 to 44. -/
theorem C8_counterexample :
    assemble_program "MOVC 300 => A" = .ok [Instruction.movC .A 44] ∧
    assemble_program "MOVC 300 => A" ≠ .error "Invalid word: 300" := by
  constructor
  · decide
  · decide

/-- Claim C8 as amended: an integer literal fails assembly iff it is not
a decimal integer representable in `i16` (outside -32768..32767); every
representable literal is accepted, reduced mod 256 (negatives included),
and `assemble_program` reports the error of the first offending line. -/
theorem C8_amended :
    (∀ w : Int, -32768 ≤ w → w ≤ 32767 →
      parse_word (intLit w) = .ok ((w % 256).toNat)) ∧
    (∀ w : Int, w < -32768 ∨ 32767 < w →
      parse_word (intLit w) = .error ("Invalid word: " ++ intLit w)) ∧
    (∀ (src : String) (good : List (List Char)) (bad : List Char)
        (rest : List (List Char)) (e : String),
      sourceLines src = good ++ bad :: rest →
      (∀ l ∈ good, ∃ i, instruction_from_str l = .ok i) →
      instruction_from_str bad = .error e →
      assemble_program src = .error e) :=
  ⟨parse_word_intLit_ok, parse_word_intLit_err,
   fun src good bad rest e hsrc hgood hbad => by
     unfold assemble_program
     rw [hsrc]
     exact assemble_lines_first_error bad rest e good hgood hbad⟩

/-- Witness for the amended C8: `-300` is accepted as 212, `40000` is
rejected, and a three-line program fails with the second line's error. -/
theorem C8_witness :
    parse_word (intLit (-300)) = .ok (((-300 : Int) % 256).toNat) ∧
    parse_word (intLit 40000) = .error ("Invalid word: " ++ intLit 40000) ∧
    assemble_program "MOVC 1 => A\nMOVC 40000 => B\nHALT" =
      .error "Invalid word: 40000" :=
  ⟨C8_amended.1 (-300) (by norm_num) (by norm_num),
   C8_amended.2.1 40000 (by norm_num),
   C8_amended.2.2 "MOVC 1 => A\nMOVC 40000 => B\nHALT"
     ["MOVC 1 => A".data] "MOVC 40000 => B".data ["HALT".data]
     "Invalid word: 40000"
     (by decide)
     (by intro l hl
         simp only [List.mem_singleton] at hl
         subst hl
         exact ⟨Instruction.movC .A 1, by decide⟩)
     (by decide)⟩

end LegSim